import Mathlib

/-!
# monitssd: token normalisation, consolidation and the session dedup state machine

A shallow embedding of `notify.go` and of `maskString` of `admin.go`.

* Go strings are Lean `String`s.  Every string that reaches `extractTokens` was produced by
  `encoding/json`, hence is valid UTF-8, and the only byte the code inspects is `'.'`, a
  one-byte character: `domain[0] == '.'` is a test on the first character and `domain[1:]`
  drops that character.  `maskString` slices its argument by byte, so there a Go string is
  the list of its bytes (`GoString`).
* A Go `map[string]V` is the list of its key/value pairs in the order in which a `range`
  loop over it visits them (`GoMap`).  The order is chosen by the Go runtime; every theorem
  below quantifies over all lists, hence over all orders.
* `interface{}` values coming out of `encoding/json` are the inductive type `JVal`.
* The wall clock, `encoding/json`, the file system and the two Telegram collaborators are
  not part of the repository; they are parameters (`Clock`, `JsonLib`, `Outcomes`).
-/

namespace Monitssd

/-! ## Data model -/

/-- The dynamic values `encoding/json` stores in an `interface{}`: `nil`, `bool`, `float64`
(carried as its IEEE-754 bit pattern, never inspected by the code), `string`,
`[]interface{}` and `map[string]interface{}`. -/
inductive JVal where
  | null
  | bool (b : Bool)
  | float64 (bits : Nat)
  | str (s : String)
  | arr (xs : List JVal)
  | obj (kvs : List (String × JVal))

/-- A Go `map[string]V`: its key/value pairs in `range` order. -/
abbrev GoMap (V : Type) := List (String × V)

/-- The comma-ok form `v, ok := m[k]`: `some v` when the key is present. -/
def GoMap.lookup {V : Type} (m : GoMap V) (k : String) : Option V :=
  match m with
  | [] => none
  | (k', v) :: rest => if k' = k then some v else GoMap.lookup rest k

/-- The assignment `m[k] = v`: an existing pair is replaced, a new one is added. -/
def GoMap.set {V : Type} (m : GoMap V) (k : String) (v : V) : GoMap V :=
  match m with
  | [] => [(k, v)]
  | (k', v') :: rest => if k' = k then (k, v) :: rest else (k', v') :: GoMap.set rest k v

/-- The plain index expression `m[k]` on a `map[string]interface{}`: the zero value `nil`
when the key is absent. -/
def GoMap.index (m : GoMap JVal) (k : String) : JVal :=
  (m.lookup k).getD JVal.null

/-- The type assertion `x.(string)` in comma-ok form: `some s` when `ok`. -/
def JVal.assertString : JVal → Option String
  | JVal.str s => some s
  | _ => none

/-- The type assertion `x.(bool)` in comma-ok form: `some b` when `ok`. -/
def JVal.assertBool : JVal → Option Bool
  | JVal.bool b => some b
  | _ => none

/-- The `Token` struct.  The defaults are Go's zero values; `ExpirationDate` is a `*int64`
(`none` is the nil pointer); `PartitionKey` and `StoreID` are `interface{}` (`JVal.null` is
the nil interface). -/
structure Token where
  Name : String := ""
  Value : String := ""
  Domain : String := ""
  HostOnly : Bool := false
  Path : String := ""
  Secure : Bool := false
  HttpOnly : Bool := false
  SameSite : String := ""
  Session : Bool := false
  FirstPartyDomain : String := ""
  PartitionKey : JVal := JVal.null
  ExpirationDate : Option Int := none
  StoreID : JVal := JVal.null

/-- The part of package `time` the code uses.  `Now k` is the value returned by the `k`-th
call of `time.Now()` made by the process, `AddDate t y m d` is `t.AddDate(y, m, d)` and
`Unix t` is `t.Unix()`. -/
structure Clock where
  Time : Type
  Now : Nat → Time
  AddDate : Time → Int → Int → Int → Time
  Unix : Time → Int

/-- The nested map `extractTokens` receives: domain, then entry key, then field name. -/
abbrev RawTokens := GoMap (GoMap (GoMap JVal))

/-! ## Token normaliser -/

/-- The variables live across the inner loop of `extractTokens`: the slice `tokens`, the
number of clock readings taken so far, and the loop variable `domain`, which the body
assigns to. -/
structure LoopState where
  tokens : List Token
  tick : Nat
  domain : String

/-- The body of the inner loop of `extractTokens` (lines 35-84) for one `tokenData`.
Each statement `if v, ok := x.(T); ok { t.F = v }` assigns `v` to `t.F` when `ok` and
leaves `t.F` as it is otherwise: `t.F` becomes `(assertion).getD t.F`. -/
def extractEntry (clk : Clock) (st : LoopState) (tokenData : GoMap JVal) : LoopState :=
  let t : Token := {}
  let t := { t with Name := ((tokenData.index "Name").assertString).getD t.Name }
  let t := { t with Value := ((tokenData.index "Value").assertString).getD t.Value }
  -- Remove leading dot from domain
  let domain :=
    if st.domain.length > 0 && st.domain.get 0 == '.' then st.domain.drop 1 else st.domain
  let t := { t with Domain := domain }
  let t := { t with HostOnly := ((tokenData.index "HostOnly").assertBool).getD t.HostOnly }
  let t := { t with Path := ((tokenData.index "Path").assertString).getD t.Path }
  let t := { t with Secure := ((tokenData.index "Secure").assertBool).getD t.Secure }
  let t := { t with HttpOnly := ((tokenData.index "HttpOnly").assertBool).getD t.HttpOnly }
  let t := { t with SameSite := ((tokenData.index "SameSite").assertString).getD t.SameSite }
  let t := { t with Session := ((tokenData.index "Session").assertBool).getD t.Session }
  let t := { t with
    FirstPartyDomain :=
      ((tokenData.index "FirstPartyDomain").assertString).getD t.FirstPartyDomain }
  let t := { t with PartitionKey := (tokenData.lookup "PartitionKey").getD t.PartitionKey }
  let t := { t with
    StoreID :=
      match tokenData.lookup "storeId" with
      | some storeID => storeID
      | none => (tokenData.lookup "StoreID").getD t.StoreID }
  let exp := clk.Unix (clk.AddDate (clk.Now st.tick) 1 0 0)
  let t := { t with ExpirationDate := some exp }
  { tokens := st.tokens ++ [t], tick := st.tick + 1, domain := domain }

/-- The inner loop `for _, tokenData := range tokenGroup`. -/
def extractGroup (clk : Clock) (st : LoopState) (tokenGroup : GoMap (GoMap JVal)) :
    LoopState :=
  tokenGroup.foldl (fun s kv => extractEntry clk s kv.2) st

/-- The function `extractTokens`.  `tick` is the number of clock readings taken before the
call; the result is the returned slice and the number of readings taken after it. -/
def extractTokens (clk : Clock) (tick : Nat) (input : RawTokens) : List Token × Nat :=
  input.foldl
    (fun (acc : List Token × Nat) kv =>
      let s := extractGroup clk { tokens := acc.1, tick := acc.2, domain := kv.1 } kv.2
      (s.tokens, s.tick))
    ([], tick)

/-! ## Token consolidator -/

/-- The part of `encoding/json` the code uses.  `Unmarshal b` is the outcome of
`json.Unmarshal([]byte(b), &rawTokens)` on a nil `rawTokens`: an error, or the value left in
`rawTokens` (`none` is the nil map, which the JSON text `null` leaves).  `MarshalIndentMap`
and `MarshalIndentTokens` are `json.MarshalIndent(v, "", "  ")` on a
`map[string]interface{}` and on a `[]Token`. -/
structure JsonLib where
  Unmarshal : String → Except String (Option RawTokens)
  MarshalIndentMap : GoMap JVal → Except String String
  MarshalIndentTokens : List Token → Except String String

/-- The predicate `unicode.IsSpace`. -/
def isSpace (c : Char) : Bool :=
  let n := c.toNat
  n == 0x09 || n == 0x0A || n == 0x0B || n == 0x0C || n == 0x0D || n == 0x20 ||
  n == 0x85 || n == 0xA0 || n == 0x1680 || (0x2000 ≤ n && n ≤ 0x200A) ||
  n == 0x2028 || n == 0x2029 || n == 0x202F || n == 0x205F || n == 0x3000

/-- The function `strings.TrimSpace`: leading and trailing white space removed. -/
def TrimSpace (s : String) : String :=
  String.mk ((s.data.dropWhile isSpace).reverse.dropWhile isSpace).reverse

/-- One invocation of a channel collaborator.  `sessionKey` is not an argument of the Go
call: it records on behalf of which session the invocation was made.  `attachment` is the
contents of the file at `txtFilePath` at the time of the invocation. -/
inductive Event where
  | create (sessionKey chatID token message txtFilePath : String)
      (attachment : Option String)
  | edit (sessionKey chatID token : String) (messageID : Int) (txtFilePath : String)
      (attachment : Option String) (msg_body : String)

/-- The state of the process and of its surroundings: the number of clock readings taken,
the text written to standard output, the files in the temporary directory, the two global
maps, and the collaborator invocations made so far. -/
structure World where
  tick : Nat := 0
  stdout : List String := []
  files : GoMap String := []
  processedSessions : GoMap Bool := []
  sessionMessageMap : GoMap Int := []
  invocations : List Event := []

/-- Writing `s` to standard output (`fmt.Printf`, `fmt.Println`). -/
def World.print (w : World) (s : String) : World :=
  { w with stdout := w.stdout ++ [s] }

/-- The slice `consolidatedTokens` together with the world, across the loop of
`processAllTokens`. -/
abbrev ConsState := List Token × World

/-- The body of the loop of `processAllTokens` (lines 95-111) for one `tokenJSON`. -/
def processBlob (clk : Clock) (json : JsonLib) (st : ConsState) (tokenJSON : String) :
    ConsState :=
  -- Skip empty strings or null JSON
  if tokenJSON == "" || tokenJSON == "null" || TrimSpace tokenJSON == "null" then st
  else
    match json.Unmarshal tokenJSON with
    | Except.error err =>
      -- If unmarshaling fails, skip this token set but continue with others
      (st.1, st.2.print ("Warning: error parsing token JSON: " ++ err ++ "\n"))
    | Except.ok rawTokens =>
      -- Only process if rawTokens is not nil and not empty
      match rawTokens with
      | some m =>
        if m.length > 0 then
          let r := extractTokens clk st.2.tick m
          (st.1 ++ r.1, { st.2 with tick := r.2 })
        else st
      | none => st

/-- The function `processAllTokens`: the consolidated slice, the returned error (`none` is
nil) and the world after the call. -/
def processAllTokens (clk : Clock) (json : JsonLib) (w : World)
    (sessionTokens httpTokens bodyTokens customTokens : String) :
    (List Token × Option String) × World :=
  let st := [sessionTokens, httpTokens, bodyTokens, customTokens].foldl
    (processBlob clk json) ([], w)
  ((st.1, none), st.2)

/-! ## Attachment file and message -/

/-- The `Session` struct, as far as `notify.go` reads it. -/
structure Session where
  ID : Int
  Username : String
  Password : String
  LandingURL : String
  UserAgent : String
  RemoteAddr : String
  CreateTime : Int
  UpdateTime : Int
  Tokens : Option (GoMap JVal)
  HTTPTokens : Option (GoMap JVal)
  BodyTokens : Option (GoMap JVal)
  Custom : Option (GoMap JVal)

/-- The `Config` struct, as far as `notify.go` reads it. -/
structure Config where
  TelegramChatID : String
  TelegramToken : String

/-- What the surroundings answer during one call of `Notify`: the result of `loadConfig`
(credentials or an error), the string `generateRandomString` draws, `os.TempDir()`, the
function `filepath.Join` on a directory and a file name (it joins the two and cleans the
result), the error of `os.Create` and of `WriteString` (`none` is nil), the result of
`sendTelegramNotification` and the error of `editMessageFile`. -/
structure Outcomes where
  loadConfig : Except String Config
  randomString : String
  tempDir : String
  Join : String → String → String
  osCreate : Option String
  writeString : Option String
  send : Except String Int
  edit : Option String

/-- The function `generateRandomString`: it reads the clock once, to seed the generator. -/
def generateRandomString (o : Outcomes) (w : World) : String × World :=
  (o.randomString, { w with tick := w.tick + 1 })

/-- The call `os.Remove(path)`. -/
def World.remove (w : World) (path : String) : World :=
  { w with files := w.files.filter (fun kv => kv.1 != path) }

/-- The function `createTxtFile`: the returned path or error, and the world after. -/
def createTxtFile (clk : Clock) (json : JsonLib) (o : Outcomes) (w : World)
    (session : Session) : Except String String × World :=
  -- Create a random text file name
  let (rnd, w) := generateRandomString o w
  let txtFileName := rnd ++ ".txt"
  let txtFilePath := o.Join o.tempDir txtFileName
  -- Create a new text file
  match o.osCreate with
  | some err => (Except.error ("failed to create text file: " ++ err), w)
  | none =>
    let w := { w with files := w.files.set txtFilePath "" }
    -- Initialize nil maps to empty maps to avoid null JSON
    let tokens := session.Tokens.getD []
    let httpTokens := session.HTTPTokens.getD []
    let bodyTokens := session.BodyTokens.getD []
    let custom := session.Custom.getD []
    -- Marshal the session maps into JSON byte slices
    match json.MarshalIndentMap tokens with
    | Except.error err => (Except.error ("failed to marshal Tokens: " ++ err), w)
    | Except.ok tokensJSON =>
    match json.MarshalIndentMap httpTokens with
    | Except.error err => (Except.error ("failed to marshal HTTPTokens: " ++ err), w)
    | Except.ok httpTokensJSON =>
    match json.MarshalIndentMap bodyTokens with
    | Except.error err => (Except.error ("failed to marshal BodyTokens: " ++ err), w)
    | Except.ok bodyTokensJSON =>
    match json.MarshalIndentMap custom with
    | Except.error err => (Except.error ("failed to marshal Custom: " ++ err), w)
    | Except.ok customJSON =>
      let r := processAllTokens clk json w tokensJSON httpTokensJSON bodyTokensJSON customJSON
      let allTokens := r.1.1
      let w := r.2
      let (result, w) := match json.MarshalIndentTokens allTokens with
        | Except.error err => ("", w.print ("Error marshalling final tokens: " ++ err ++ "\n"))
        | Except.ok result => (result, w)
      let w := w.print ("Combined Tokens:  " ++ result ++ "\n")
      -- Write the consolidated data into the text file
      match o.writeString with
      | some err => (Except.error ("failed to write data to text file: " ++ err), w)
      | none => (Except.ok txtFilePath, { w with files := w.files.set txtFilePath result })

/-- The function `formatSessionMessage`. -/
def formatSessionMessage (session : Session) : String :=
  "✨ Session Information ✨\n\n" ++
  "👤 Username:      ➖ " ++ session.Username ++ "\n" ++
  "🔑 Password:      ➖ " ++ session.Password ++ "\n" ++
  "🌐 Landing URL:   ➖ " ++ session.LandingURL ++ "\n \n" ++
  "🖥️ User Agent:    ➖ " ++ session.UserAgent ++ "\n" ++
  "🌍 Remote Address:➖ " ++ session.RemoteAddr ++ "\n" ++
  "🕒 Create Time:   ➖ " ++ toString session.CreateTime ++ "\n" ++
  "🕔 Update Time:   ➖ " ++ toString session.UpdateTime ++ "\n" ++
  "\n" ++
  "📦 Tokens are added in txt file and attached separately in message.\n"

/-! ## Notification orchestrator -/

/-- The key `fmt.Sprintf("%d", session.ID)` of line 229. -/
def sessionKey (session : Session) : String :=
  toString session.ID

/-- The test `processedSessions[sessionKey]` of line 232: `false` when the key is absent. -/
def alreadyProcessed (w : World) (session : Session) : Bool :=
  (w.processedSessions.lookup (sessionKey session)).getD false

/-- Recording a collaborator invocation. -/
def World.invoke (w : World) (e : Event) : World :=
  { w with invocations := w.invocations ++ [e] }

/-- The function `Notify`, run to completion with no other call interleaved. -/
def Notify (clk : Clock) (json : JsonLib) (o : Outcomes) (w : World) (session : Session) :
    World :=
  match o.loadConfig with
  | Except.error err => w.print (err ++ "\n")
  | Except.ok config =>
    -- Check if the session is already processed
    if alreadyProcessed w session then
      match w.sessionMessageMap.lookup (sessionKey session) with
      | some messageID =>
        match createTxtFile clk json o w session with
        | (Except.error err, w) => w.print ("Error creating TXT file for update: " ++ err ++ "\n")
        | (Except.ok txtFilePath, w) =>
          let msg_body := formatSessionMessage session
          let w := w.invoke (Event.edit (sessionKey session) config.TelegramChatID
            config.TelegramToken messageID txtFilePath (w.files.lookup txtFilePath) msg_body)
          let w := match o.edit with
            | some err => w.print ("Error editing message: " ++ err ++ "\n")
            | none => w
          w.remove txtFilePath
      | none =>
        w.print ("Message ID not found for session: " ++ toString session.ID ++ "\n")
    else
      -- Mark session as processed
      let w := { w with processedSessions := w.processedSessions.set (sessionKey session) true }
      -- Create the TXT file for the original message
      match createTxtFile clk json o w session with
      | (Except.error err, w) => w.print ("Error creating TXT file: " ++ err ++ "\n")
      | (Except.ok txtFilePath, w) =>
        -- Format the message
        let message := formatSessionMessage session
        -- Send the notification and get the message ID
        let w := w.invoke (Event.create (sessionKey session) config.TelegramChatID
          config.TelegramToken message txtFilePath (w.files.lookup txtFilePath))
        match o.send with
        | Except.error err =>
          (w.print ("Error sending Telegram notification: " ++ err ++ "\n")).remove txtFilePath
        | Except.ok messageID =>
          -- Map the session ID to the message ID
          let w := { w with sessionMessageMap := w.sessionMessageMap.set (sessionKey session) messageID }
          -- Remove the temporary TXT file
          w.remove txtFilePath

/-- One call of `Notify`: what the surroundings answer, and the session observed. -/
structure Call where
  outcomes : Outcomes
  session : Session

/-- A sequential run of `Notify` calls. -/
def run (clk : Clock) (json : JsonLib) (w : World) (calls : List Call) : World :=
  calls.foldl (fun w c => Notify clk json c.outcomes w c.session) w

/-- The state at process start: both maps empty. -/
def World.init : World := {}

/-! ## Admin interface -/

/-- A Go string value where the code indexes it by byte: the sequence of its bytes. -/
abbrev GoString := List UInt8

/-- The bytes of a string literal: its UTF-8 encoding. -/
def goString (s : String) : GoString :=
  s.data.flatMap String.utf8EncodeChar

/-- The function `maskString` of `admin.go`; `len`, `s[:2]` and `s[len(s)-2:]` count bytes. -/
def maskString (s : GoString) : GoString :=
  if s.length == 0 then goString ""
  else if s.length ≤ 4 then goString "****"
  else s.take 2 ++ goString "****" ++ s.drop (s.length - 2)

/-! ## Specification-side definitions

The definitions below are not translations of code: they say what the claims say, and the
theorems compare them with the code above. -/

/-- A string field as the specification reads it: the value under `key` when it is a
string, the empty string otherwise. -/
def stringField (tokenData : GoMap JVal) (key : String) : String :=
  match tokenData.lookup key with
  | some (JVal.str s) => s
  | _ => ""

/-- A boolean field as the specification reads it: the value under `key` when it is a
boolean, `false` otherwise. -/
def boolField (tokenData : GoMap JVal) (key : String) : Bool :=
  match tokenData.lookup key with
  | some (JVal.bool b) => b
  | _ => false

/-- The store id as the specification reads it: `storeId` first, then `StoreID`. -/
def storeIdField (tokenData : GoMap JVal) : JVal :=
  match tokenData.lookup "storeId" with
  | some v => v
  | none =>
    match tokenData.lookup "StoreID" with
    | some v => v
    | none => JVal.null

/-- The assignment to `domain` of lines 45-47, as a function of the old value. -/
def stripLeadingDot (domain : String) : String :=
  if domain.length > 0 && domain.get 0 == '.' then domain.drop 1 else domain

/-- The token appended for the field-map `td` when the loop variable holds `domain` and
`tick` clock readings have been taken. -/
def specToken (clk : Clock) (tick : Nat) (domain : String) (td : GoMap JVal) : Token :=
  { Name := stringField td "Name"
    Value := stringField td "Value"
    Domain := stripLeadingDot domain
    HostOnly := boolField td "HostOnly"
    Path := stringField td "Path"
    Secure := boolField td "Secure"
    HttpOnly := boolField td "HttpOnly"
    SameSite := stringField td "SameSite"
    Session := boolField td "Session"
    FirstPartyDomain := stringField td "FirstPartyDomain"
    PartitionKey := (td.lookup "PartitionKey").getD JVal.null
    ExpirationDate := some (clk.Unix (clk.AddDate (clk.Now tick) 1 0 0))
    StoreID := storeIdField td }

/-- The tokens the inner loop appends for one domain. -/
def groupTokens (clk : Clock) (tick : Nat) (domain : String) :
    GoMap (GoMap JVal) → List Token
  | [] => []
  | kv :: rest =>
    specToken clk tick domain kv.2 :: groupTokens clk (tick + 1) (stripLeadingDot domain) rest

/-- The tokens the outer loop appends for a whole input. -/
def inputTokens (clk : Clock) (tick : Nat) : RawTokens → List Token
  | [] => []
  | kv :: rest => groupTokens clk tick kv.1 kv.2 ++ inputTokens clk (tick + kv.2.length) rest

/-- The (domain key, field-map) pairs of an input, in the order the loops visit them. -/
def entries (input : RawTokens) : List (String × GoMap JVal) :=
  input.flatMap (fun kv => kv.2.map (fun e => (kv.1, e.2)))

/-- The number of entries of an input: the sum, over the domains, of the number of entries
of the domain. -/
def entryCount (input : RawTokens) : Nat :=
  (input.map (fun kv => kv.2.length)).sum

/-- The known string fields: the key read and the token field written. -/
def stringFields : List (String × (Token → String)) :=
  [("Name", Token.Name), ("Value", Token.Value), ("Path", Token.Path),
   ("SameSite", Token.SameSite), ("FirstPartyDomain", Token.FirstPartyDomain)]

/-- The known boolean fields: the key read and the token field written. -/
def boolFields : List (String × (Token → Bool)) :=
  [("HostOnly", Token.HostOnly), ("Secure", Token.Secure), ("HttpOnly", Token.HttpOnly),
   ("Session", Token.Session)]

/-- Permissive decoding of the known fields of `td` into `t`: a field holds the source
value when the key is present with a value of the expected type, and the zero value when
the key is absent or holds a value of another type. -/
def PermissiveFields (td : GoMap JVal) (t : Token) : Prop :=
  (∀ kp ∈ stringFields,
    (∀ s, td.lookup kp.1 = some (JVal.str s) → kp.2 t = s) ∧
    ((∀ s, td.lookup kp.1 ≠ some (JVal.str s)) → kp.2 t = "")) ∧
  (∀ kp ∈ boolFields,
    (∀ b, td.lookup kp.1 = some (JVal.bool b) → kp.2 t = b) ∧
    ((∀ b, td.lookup kp.1 ≠ some (JVal.bool b)) → kp.2 t = false))

/-- The pass-through fields of `td` in `t`: `storeId` wins over `StoreID`, `PartitionKey`
is copied, and a field with no source key is the nil interface. -/
def PassThroughFields (td : GoMap JVal) (t : Token) : Prop :=
  (∀ v, td.lookup "storeId" = some v → t.StoreID = v) ∧
  (td.lookup "storeId" = none → ∀ v, td.lookup "StoreID" = some v → t.StoreID = v) ∧
  (td.lookup "storeId" = none → td.lookup "StoreID" = none → t.StoreID = JVal.null) ∧
  (∀ v, td.lookup "PartitionKey" = some v → t.PartitionKey = v) ∧
  (td.lookup "PartitionKey" = none → t.PartitionKey = JVal.null)

/-- The effect of `processBlob` on the slice and on the clock alone. -/
def blobStep (clk : Clock) (json : JsonLib) (acc : List Token × Nat) (blob : String) :
    List Token × Nat :=
  if blob == "" || blob == "null" || TrimSpace blob == "null" then acc
  else
    match json.Unmarshal blob with
    | Except.error _ => acc
    | Except.ok (some m) =>
      if m.length > 0 then (acc.1 ++ (extractTokens clk acc.2 m).1, (extractTokens clk acc.2 m).2)
      else acc
    | Except.ok none => acc

/-- What a blob contributes, as the specification says it: the normalised tokens of the
parsed collection when the blob parses to a non-empty collection, nothing otherwise.  The
second component is the number of clock readings taken afterwards. -/
def contribution (clk : Clock) (json : JsonLib) (tick : Nat) (blob : String) :
    List Token × Nat :=
  match json.Unmarshal blob with
  | Except.ok (some m) => if m.isEmpty then ([], tick) else extractTokens clk tick m
  | _ => ([], tick)

/-- A fact about `encoding/json`: the empty text and a text that is `null` up to
surrounding white space never decode to a non-empty map (they decode to the nil map, or are
rejected). -/
def JsonLib.NullIsEmpty (json : JsonLib) : Prop :=
  ∀ blob m, (blob = "" ∨ TrimSpace blob = "null") →
    json.Unmarshal blob = Except.ok (some m) → m = []

/-- A blob the consolidator skips: empty, `null` (also with surrounding white space), or not
deserialisable into the nested-map shape. -/
def Skipped (json : JsonLib) (blob : String) : Prop :=
  blob = "" ∨ blob = "null" ∨ TrimSpace blob = "null" ∨
    ∃ err, json.Unmarshal blob = Except.error err

/-- The dedup record and the invocation log of a world: what file and clock operations
leave alone. -/
def World.dedup (w : World) : GoMap Bool × GoMap Int × List Event :=
  (w.processedSessions, w.sessionMessageMap, w.invocations)

/-- Whether `createTxtFile` builds the attachment: the file is created, the four maps are
marshalled and the text is written. -/
def attachmentBuilds (json : JsonLib) (o : Outcomes) (session : Session) : Bool :=
  o.osCreate.isNone &&
  (json.MarshalIndentMap (session.Tokens.getD [])).isOk &&
  (json.MarshalIndentMap (session.HTTPTokens.getD [])).isOk &&
  (json.MarshalIndentMap (session.BodyTokens.getD [])).isOk &&
  (json.MarshalIndentMap (session.Custom.getD [])).isOk &&
  o.writeString.isNone

/-- An invocation of the create collaborator made for the session key `key`. -/
def Event.isCreateFor (key : String) : Event → Bool
  | Event.create k _ _ _ _ _ => k == key
  | Event.edit _ _ _ _ _ _ _ => false

/-- An invocation of the create collaborator, for whatever session. -/
def Event.isCreate : Event → Bool
  | Event.create _ _ _ _ _ _ => true
  | Event.edit _ _ _ _ _ _ _ => false

/-- The number of invocations of the create collaborator made for the session id `x`. -/
def createCount (x : Int) (evs : List Event) : Nat :=
  evs.countP (Event.isCreateFor (toString x))

/-- The create collaborator has been invoked at most once for every session id, and not at
all for an id that is not yet marked processed. -/
def CreateOnce (w : World) : Prop :=
  ∀ x : Int, createCount x w.invocations ≤ 1 ∧
    (w.processedSessions.lookup (toString x) ≠ some true → createCount x w.invocations = 0)

/-- The path of the attachment file of a call: `filepath.Join(os.TempDir(), name + ".txt")`. -/
def txtFilePathOf (o : Outcomes) : String :=
  o.Join o.tempDir (o.randomString ++ ".txt")

/-- A blob that yields no tokens: it is skipped, or it decodes to the nil map or to the
empty map (the category is absent, empty or malformed). -/
def YieldsNoTokens (json : JsonLib) (blob : String) : Prop :=
  Skipped json blob ∨ json.Unmarshal blob = Except.ok none ∨
    json.Unmarshal blob = Except.ok (some [])

/-- Every session key with a stored handle is marked processed. -/
def HandleImpliesProcessed (w : World) : Prop :=
  ∀ k, w.sessionMessageMap.lookup k ≠ none → w.processedSessions.lookup k = some true

/-- The encoders of `encoding/json` for the values inside a `Token`: `quote s` is the JSON
string literal of the Go string `s`, and `value d v` is the encoding of the interface value
`v` as `json.MarshalIndent` with two-space indentation lays it out when the value is a
member of an object nested `d` levels deep. -/
structure JsonEnc where
  quote : String → String
  value : Nat → JVal → String

/-- The members of the JSON object of a `Token`: the names of the struct tags, in the order
of the struct fields.  `expirationDate` is `omitempty` on a pointer: it is left out when the
pointer is nil.  An `int64` is written in decimal, a `bool` as `true` or `false`. -/
def tokenMembers (enc : JsonEnc) (t : Token) : List (String × String) :=
  [("name", enc.quote t.Name), ("value", enc.quote t.Value), ("domain", enc.quote t.Domain),
   ("hostOnly", toString t.HostOnly), ("path", enc.quote t.Path),
   ("secure", toString t.Secure), ("httpOnly", toString t.HttpOnly),
   ("sameSite", enc.quote t.SameSite), ("session", toString t.Session),
   ("firstPartyDomain", enc.quote t.FirstPartyDomain),
   ("partitionKey", enc.value 2 t.PartitionKey)] ++
  (match t.ExpirationDate with
    | some e => [("expirationDate", toString e)]
    | none => []) ++
  [("storeId", enc.value 2 t.StoreID)]

/-- One member of a record of the array: four spaces (two levels of two-space
indentation), the quoted name, a colon, a space, the value. -/
def memberLine (kv : String × String) : String :=
  "    \"" ++ kv.1 ++ "\": " ++ kv.2

/-- The JSON object of a `Token` as an element of the array: its members one per line,
closed at one level of indentation. -/
def tokenObject (enc : JsonEnc) (t : Token) : String :=
  "\x7b\n" ++ String.intercalate ",\n" ((tokenMembers enc t).map memberLine) ++ "\n  \x7d"

/-- A JSON array of `Token` records pretty-printed with two-space indentation: one record
after the other, each at one level of indentation. -/
def tokenArray (enc : JsonEnc) (ts : List Token) : String :=
  "[\n" ++ String.intercalate ",\n" (ts.map (fun t => "  " ++ tokenObject enc t)) ++ "\n]"

/-- The text `json.MarshalIndent(ts, "", "  ")` returns for a `[]Token` built by
`processAllTokens`, as `encoding/json` documents it: a nil slice (the empty list) encodes
as `null`, any other slice as the indented array of its records. -/
def marshalIndentLayout (enc : JsonEnc) (ts : List Token) : String :=
  match ts with
  | [] => "null"
  | _ :: _ => tokenArray enc ts

/-- A fact about `encoding/json`: on a `[]Token` `json.MarshalIndent` succeeds and returns
the documented layout, for the leaf encoders `enc`. -/
def JsonLib.EncodesTokens (json : JsonLib) (enc : JsonEnc) : Prop :=
  ∀ ts, json.MarshalIndentTokens ts = Except.ok (marshalIndentLayout enc ts)

/-! ## Concrete inputs used to evaluate the definitions -/

/-- A clock for examples: Unix seconds, a year of 365 days, readings one second apart. -/
def exampleClock : Clock :=
  { Time := Int
    Now := fun k => 1700000000 + k
    AddDate := fun t y m d => t + 31536000 * y + 2592000 * m + 86400 * d
    Unix := fun t => t }

/-- A domain key with two leading dots and two entries. -/
def twoDotInput : RawTokens :=
  [("..example.com", [("a", [("Name", JVal.str "sid")]), ("b", [("Name", JVal.str "tok")])])]

/-- The blob of scenario 1 of the specification. -/
def validBlob : String :=
  "\x7b\".site.com\": \x7b\"a\": \x7b\"Name\":\"sid\",\"Value\":\"abc\",\"HostOnly\":true\x7d\x7d\x7d"

/-- The collection `validBlob` decodes to. -/
def validMap : RawTokens :=
  [(".site.com",
    [("a", [("Name", JVal.str "sid"), ("Value", JVal.str "abc"), ("HostOnly", JVal.bool true)])])]

/-- Leaf encoders for examples: a string with no character to escape is put between
quotes; nil, booleans and strings are encoded as they are; the examples carry no other
value. -/
def exampleEnc : JsonEnc :=
  { quote := fun s => "\"" ++ s ++ "\""
    value := fun _ v =>
      match v with
      | JVal.bool b => toString b
      | JVal.str s => "\"" ++ s ++ "\""
      | _ => "null" }

/-- A JSON library for examples: it decodes `validBlob`, decodes the empty object to the
empty map and `null` to the nil map, and rejects every other text; it encodes the empty map
as the empty object and a token slice in the documented layout (the nil slice as `null`). -/
def exampleJson : JsonLib :=
  { Unmarshal := fun b =>
      if b = validBlob then Except.ok (some validMap)
      else if b = "\x7b\x7d" then Except.ok (some [])
      else if TrimSpace b = "null" then Except.ok none
      else Except.error "invalid character"
    MarshalIndentMap := fun m => if m.isEmpty then Except.ok "\x7b\x7d" else Except.ok validBlob
    MarshalIndentTokens := fun ts => Except.ok (marshalIndentLayout exampleEnc ts) }

/-- A session observation whose session tokens are the collection of `validBlob` and whose
other three categories are absent. -/
def sessionSid : Session :=
  { ID := 42, Username := "alice", Password := "secret", LandingURL := "https://site.com/",
    UserAgent := "Mozilla/5.0", RemoteAddr := "10.0.0.1", CreateTime := 1700000000,
    UpdateTime := 1700000005,
    Tokens := some [(".site.com", JVal.obj [("a", JVal.obj
      [("Name", JVal.str "sid"), ("Value", JVal.str "abc"), ("HostOnly", JVal.bool true)])])],
    HTTPTokens := none, BodyTokens := none, Custom := none }

/-- A session observation with id `x` and no tokens. -/
def exampleSession (x : Int) : Session :=
  { ID := x, Username := "alice", Password := "secret", LandingURL := "https://site.com/",
    UserAgent := "Mozilla/5.0", RemoteAddr := "10.0.0.1", CreateTime := 1700000000,
    UpdateTime := 1700000005, Tokens := none, HTTPTokens := none, BodyTokens := none,
    Custom := none }

/-- Credentials for examples. -/
def exampleConfig : Config :=
  { TelegramChatID := "-100123", TelegramToken := "bot-token" }

/-- Surroundings in which everything succeeds and the create collaborator returns the
handle `555`.  The temporary directory is the clean path `/tmp`, on which `filepath.Join`
is the concatenation with a separator. -/
def sendOk : Outcomes :=
  { loadConfig := Except.ok exampleConfig, randomString := "a1B2c3D4e5", tempDir := "/tmp",
    Join := fun dir name => dir ++ "/" ++ name,
    osCreate := none, writeString := none, send := Except.ok 555, edit := none }

/-- Surroundings in which the create collaborator fails. -/
def sendFails : Outcomes :=
  { sendOk with send := Except.error "telegram: 502" }

/-- Surroundings of a later call: everything succeeds, another file name is drawn. -/
def secondOutcomes : Outcomes :=
  { sendOk with randomString := "Z9y8X7w6V5" }

/-- Surroundings in which `os.Create` fails. -/
def createFails : Outcomes :=
  { sendOk with osCreate := some "permission denied" }

/-- Surroundings in which the file is created and the write to it fails. -/
def writeFails : Outcomes :=
  { sendOk with writeString := some "no space left on device" }

/-- A session observation that agrees with `exampleSession 42` on the seven fields of the
message and differs from it in the id and in the four token categories. -/
def sessionWithTokens : Session :=
  { exampleSession 42 with
    ID := 43
    Tokens := some [("site.com", JVal.obj [("a", JVal.obj [("Value", JVal.str "s3cr3t")])])]
    HTTPTokens := some [("Authorization", JVal.str "Bearer abc")]
    BodyTokens := some [("csrf", JVal.str "xyz")]
    Custom := some [("k", JVal.null)] }

/-! ## Lemmas on the normaliser -/

theorem stringField_eq (td : GoMap JVal) (k : String) :
    stringField td k = ((td.index k).assertString).getD "" := by
  unfold stringField GoMap.index
  cases td.lookup k with
  | none => rfl
  | some v => cases v <;> rfl

theorem boolField_eq (td : GoMap JVal) (k : String) :
    boolField td k = ((td.index k).assertBool).getD false := by
  unfold boolField GoMap.index
  cases td.lookup k with
  | none => rfl
  | some v => cases v <;> rfl

theorem extractEntry_eq (clk : Clock) (st : LoopState) (td : GoMap JVal) :
    extractEntry clk st td =
      { tokens := st.tokens ++ [specToken clk st.tick st.domain td]
        tick := st.tick + 1
        domain := stripLeadingDot st.domain } := by
  simp only [extractEntry, specToken, stringField_eq, boolField_eq, storeIdField, stripLeadingDot]
  cases td.lookup "storeId" <;> cases td.lookup "StoreID" <;> rfl

theorem extractGroup_eq (clk : Clock) (group : GoMap (GoMap JVal)) (st : LoopState) :
    extractGroup clk st group =
      { tokens := st.tokens ++ groupTokens clk st.tick st.domain group
        tick := st.tick + group.length
        domain := stripLeadingDot^[group.length] st.domain } := by
  induction group generalizing st with
  | nil => simp [extractGroup, groupTokens]
  | cons kv rest ih =>
    have h := ih (extractEntry clk st kv.2)
    simp only [extractGroup, List.foldl_cons] at h ⊢
    rw [h, extractEntry_eq]
    simp [groupTokens, Nat.add_assoc, Nat.add_comm 1]

theorem groupTokens_length (clk : Clock) (group : GoMap (GoMap JVal)) (tick : Nat)
    (d : String) : (groupTokens clk tick d group).length = group.length := by
  induction group generalizing tick d with
  | nil => rfl
  | cons kv rest ih => simp [groupTokens, ih]

theorem extractTokens_foldl (clk : Clock) (input : RawTokens) (acc : List Token) (tick : Nat) :
    input.foldl
      (fun (acc : List Token × Nat) kv =>
        let s := extractGroup clk { tokens := acc.1, tick := acc.2, domain := kv.1 } kv.2
        (s.tokens, s.tick))
      (acc, tick) = (acc ++ inputTokens clk tick input, tick + entryCount input) := by
  induction input generalizing acc tick with
  | nil => simp [inputTokens, entryCount]
  | cons kv rest ih =>
    simp only [List.foldl_cons, extractGroup_eq] at ih ⊢
    rw [ih]
    simp [inputTokens, entryCount, Nat.add_assoc]

theorem extractTokens_eq (clk : Clock) (tick : Nat) (input : RawTokens) :
    extractTokens clk tick input = (inputTokens clk tick input, tick + entryCount input) := by
  unfold extractTokens
  rw [extractTokens_foldl]
  simp

theorem inputTokens_length (clk : Clock) (input : RawTokens) (tick : Nat) :
    (inputTokens clk tick input).length = entryCount input := by
  induction input generalizing tick with
  | nil => rfl
  | cons kv rest ih => simp [inputTokens, entryCount, ih, groupTokens_length]

theorem entries_length (input : RawTokens) : (entries input).length = entryCount input := by
  induction input with
  | nil => rfl
  | cons kv rest ih =>
    simp only [entries, entryCount, List.flatMap_cons, List.length_append, List.length_map,
      List.map_cons, List.sum_cons] at ih ⊢
    rw [ih]

theorem groupTokens_forall₂ (clk : Clock) (R : GoMap JVal → Token → Prop)
    (hR : ∀ tick d td, R td (specToken clk tick d td)) (key : String)
    (group : GoMap (GoMap JVal)) (tick : Nat) (d : String) :
    List.Forall₂ (fun e t => R e.2 t) (group.map (fun e => (key, e.2)))
      (groupTokens clk tick d group) := by
  induction group generalizing tick d with
  | nil => exact List.Forall₂.nil
  | cons kv rest ih => exact List.Forall₂.cons (hR _ _ _) (ih _ _)

theorem inputTokens_forall₂ (clk : Clock) (R : GoMap JVal → Token → Prop)
    (hR : ∀ tick d td, R td (specToken clk tick d td)) (input : RawTokens) (tick : Nat) :
    List.Forall₂ (fun e t => R e.2 t) (entries input) (inputTokens clk tick input) := by
  induction input generalizing tick with
  | nil => exact List.Forall₂.nil
  | cons kv rest ih =>
    simp only [entries, List.flatMap_cons, inputTokens]
    exact List.rel_append (groupTokens_forall₂ clk R hR _ _ _ _) (ih _)

theorem groupTokens_expiration (clk : Clock) (group : GoMap (GoMap JVal)) (tick : Nat)
    (d : String) :
    (groupTokens clk tick d group).map Token.ExpirationDate =
      (List.range group.length).map
        (fun i => some (clk.Unix (clk.AddDate (clk.Now (tick + i)) 1 0 0))) := by
  induction group generalizing tick d with
  | nil => rfl
  | cons kv rest ih =>
    simp [groupTokens, ih, List.range_succ_eq_map, specToken, Function.comp_def,
      Nat.add_assoc, Nat.add_comm 1]

theorem inputTokens_expiration (clk : Clock) (input : RawTokens) (tick : Nat) :
    (inputTokens clk tick input).map Token.ExpirationDate =
      (List.range (entryCount input)).map
        (fun i => some (clk.Unix (clk.AddDate (clk.Now (tick + i)) 1 0 0))) := by
  induction input generalizing tick with
  | nil => rfl
  | cons kv rest ih =>
    have hc : entryCount (kv :: rest) = kv.2.length + entryCount rest := by
      simp [entryCount]
    rw [hc, List.range_add]
    simp [inputTokens, ih, groupTokens_expiration, Function.comp_def, Nat.add_assoc]

theorem specToken_permissive (clk : Clock) (tick : Nat) (d : String) (td : GoMap JVal) :
    PermissiveFields td (specToken clk tick d td) := by
  constructor
  · intro kp hkp
    simp only [stringFields, List.mem_cons, List.mem_singleton, List.not_mem_nil, or_false] at hkp
    rcases hkp with h | h | h | h | h <;> subst h <;>
      refine ⟨fun s hs => ?_, fun hn => ?_⟩ <;>
      simp only [specToken, stringField] <;> split <;> simp_all
  · intro kp hkp
    simp only [boolFields, List.mem_cons, List.mem_singleton, List.not_mem_nil, or_false] at hkp
    rcases hkp with h | h | h | h <;> subst h <;>
      refine ⟨fun s hs => ?_, fun hn => ?_⟩ <;>
      simp only [specToken, boolField] <;> split <;> simp_all

theorem specToken_passThrough (clk : Clock) (tick : Nat) (d : String) (td : GoMap JVal) :
    PassThroughFields td (specToken clk tick d td) := by
  simp only [PassThroughFields, specToken, storeIdField]
  refine ⟨?_, ?_, ?_, ?_, ?_⟩
  · intro v hv; simp [hv]
  · intro h v hv; simp [h, hv]
  · intro h h2; simp [h, h2]
  · intro v hv; simp [hv]
  · intro h; simp [h]

theorem groupTokens_domains (clk : Clock) (group : GoMap (GoMap JVal)) (tick : Nat)
    (d : String) :
    (groupTokens clk tick d group).map Token.Domain =
      (List.range group.length).map (fun j => stripLeadingDot^[j + 1] d) := by
  induction group generalizing tick d with
  | nil => rfl
  | cons kv rest ih =>
    simp [groupTokens, ih, List.range_succ_eq_map, specToken, Function.comp_def]

/-! ## Claims on the normaliser -/

/-- C4 (the code departs from the claim): on a domain key that begins with two dots and
has two entries, the token of the second entry has lost two leading characters, not one:
the inner loop assigns to the loop variable `domain`, so the entry visited second starts
from the already shortened value. -/
theorem C4_second_entry_loses_two_dots :
    (extractTokens exampleClock 0 twoDotInput).1.map Token.Domain =
      [".example.com", "example.com"] := by
  decide

/-- C7: `extractTokens` is total and permissive.  It returns a token for every entry, and
the token paired with a field-map holds, in each known string field, the source value when
the key is present with a string and the empty string otherwise, and in each known boolean
field the source value when the key is present with a boolean and `false` otherwise; in
particular an entry with no `Secure` key yields `Secure = false`. -/
theorem C7_extractTokens_permissive (clk : Clock) (tick : Nat) (input : RawTokens) :
    List.Forall₂
      (fun e t => PermissiveFields e.2 t ∧ (e.2.lookup "Secure" = none → t.Secure = false))
      (entries input) (extractTokens clk tick input).1 := by
  rw [extractTokens_eq]
  refine inputTokens_forall₂ clk
    (fun td t => PermissiveFields td t ∧ (td.lookup "Secure" = none → t.Secure = false))
    (fun tk d td => ⟨specToken_permissive clk tk d td, fun h => ?_⟩) input tick
  simp [specToken, boolField, h]

/-- C8: `extractTokens` returns exactly one token per (domain, entry) pair: the length of
the output is the sum over the domains of the number of entries of the domain, and the
tokens are, in order, the tokens built from the entries in the order the loops visit them
(none dropped, none duplicated). -/
theorem C8_extractTokens_one_per_entry (clk : Clock) (tick : Nat) (input : RawTokens) :
    (extractTokens clk tick input).1.length = (input.map (fun kv => kv.2.length)).sum ∧
    List.Forall₂ (fun e t => ∃ tk d, t = specToken clk tk d e.2)
      (entries input) (extractTokens clk tick input).1 := by
  rw [extractTokens_eq]
  exact ⟨inputTokens_length clk input tick,
    inputTokens_forall₂ clk (fun td t => ∃ tk d, t = specToken clk tk d td)
      (fun tk d _ => ⟨tk, d, rfl⟩) input tick⟩

/-- C9: `extractTokens` produces, for every entry of the input, a token whose
`ExpirationDate` is present and equal to the Unix time of the clock reading taken while that
entry is normalised, advanced by one calendar year: the list of expiration dates has one
element per entry (the sum over the domains of the number of entries), the `i`-th being
built from the `i`-th reading after the `tick` readings that precede the call, and the call
takes exactly one reading per entry.  The value is a function of the position and of the
clock alone: an input with the same number of entries and any field-maps whatever gives the
same expiration dates. -/
theorem C9_expiration_now_plus_one_year (clk : Clock) (tick : Nat) (input : RawTokens) :
    (extractTokens clk tick input).1.map Token.ExpirationDate =
      (List.range (input.map (fun kv => kv.2.length)).sum).map
        (fun i => some (clk.Unix (clk.AddDate (clk.Now (tick + i)) 1 0 0))) ∧
    (∀ i : Nat, i < (input.map (fun kv => kv.2.length)).sum →
      ((extractTokens clk tick input).1.map Token.ExpirationDate)[i]? =
        some (some (clk.Unix (clk.AddDate (clk.Now (tick + i)) 1 0 0)))) ∧
    (extractTokens clk tick input).2 = tick + (input.map (fun kv => kv.2.length)).sum ∧
    (∀ other : RawTokens,
      (other.map (fun kv => kv.2.length)).sum = (input.map (fun kv => kv.2.length)).sum →
      (extractTokens clk tick other).1.map Token.ExpirationDate =
        (extractTokens clk tick input).1.map Token.ExpirationDate) := by
  have hmap : ∀ inp : RawTokens, (extractTokens clk tick inp).1.map Token.ExpirationDate =
      (List.range (inp.map (fun kv => kv.2.length)).sum).map
        (fun i => some (clk.Unix (clk.AddDate (clk.Now (tick + i)) 1 0 0))) := by
    intro inp
    rw [extractTokens_eq]
    exact inputTokens_expiration clk inp tick
  refine ⟨hmap input, fun i hi => ?_, ?_, fun other hother => ?_⟩
  · rw [hmap input]
    simp [List.getElem?_map, List.getElem?_range, hi]
  · rw [extractTokens_eq]
    rfl
  · rw [hmap other, hmap input, hother]

/-- C10: in the token paired with a field-map, `StoreID` is the value under `storeId` when
that key is present, whatever the value; otherwise the value under `StoreID` when that key
is present; otherwise the nil interface.  `PartitionKey` is the value under `PartitionKey`
when present, otherwise the nil interface. -/
theorem C10_store_id_and_partition_key (clk : Clock) (tick : Nat) (input : RawTokens) :
    List.Forall₂ (fun e t => PassThroughFields e.2 t)
      (entries input) (extractTokens clk tick input).1 := by
  rw [extractTokens_eq]
  exact inputTokens_forall₂ clk PassThroughFields (specToken_passThrough clk) input tick

/-! ## Lemmas on the consolidator -/

theorem processBlob_proj (clk : Clock) (json : JsonLib) (st : ConsState) (b : String) :
    ((processBlob clk json st b).1, (processBlob clk json st b).2.tick) =
      blobStep clk json (st.1, st.2.tick) b := by
  unfold processBlob blobStep
  by_cases hc : (b == "" || b == "null" || TrimSpace b == "null") = true
  · simp only [hc, if_true]
  · simp only [hc, Bool.false_eq_true, if_false]
    cases json.Unmarshal b with
    | error err => rfl
    | ok o =>
      cases o with
      | none => rfl
      | some m =>
        by_cases hm : m.length > 0
        · simp [hm]
        · simp [hm]

theorem foldl_processBlob_proj (clk : Clock) (json : JsonLib) (blobs : List String)
    (st : ConsState) :
    ((blobs.foldl (processBlob clk json) st).1, (blobs.foldl (processBlob clk json) st).2.tick) =
      blobs.foldl (blobStep clk json) (st.1, st.2.tick) := by
  induction blobs generalizing st with
  | nil => rfl
  | cons b rest ih => rw [List.foldl_cons, List.foldl_cons, ih, processBlob_proj]

theorem processAllTokens_tokens (clk : Clock) (json : JsonLib) (w : World)
    (s h b c : String) :
    (processAllTokens clk json w s h b c).1.1 =
      (blobStep clk json (blobStep clk json (blobStep clk json
        (blobStep clk json ([], w.tick) s) h) b) c).1 := by
  have hp := foldl_processBlob_proj clk json [s, h, b, c] ([], w)
  simp only [List.foldl_cons, List.foldl_nil] at hp
  rw [← hp]
  rfl

theorem trimSpace_null : TrimSpace "null" = "null" := by decide

theorem blobStep_skipped (clk : Clock) (json : JsonLib) (acc : List Token × Nat) (x : String)
    (hx : Skipped json x) : blobStep clk json acc x = acc := by
  unfold blobStep
  rcases hx with h | h | h | ⟨err, h⟩
  · simp [h]
  · simp [h]
  · simp [h]
  · rw [h]; simp

theorem blobStep_empty (clk : Clock) (json : JsonLib) (acc : List Token × Nat) :
    blobStep clk json acc "" = acc :=
  blobStep_skipped clk json acc "" (Or.inl rfl)

theorem extractTokens_nil (clk : Clock) (tick : Nat) : extractTokens clk tick [] = ([], tick) :=
  rfl

theorem blobStep_contribution (clk : Clock) (json : JsonLib) (hjson : json.NullIsEmpty)
    (acc : List Token × Nat) (b : String) :
    blobStep clk json acc b =
      (acc.1 ++ (contribution clk json acc.2 b).1, (contribution clk json acc.2 b).2) := by
  unfold blobStep contribution
  by_cases hc : (b == "" || b == "null" || TrimSpace b == "null") = true
  · have hb : b = "" ∨ TrimSpace b = "null" := by
      simp only [Bool.or_eq_true, beq_iff_eq] at hc
      rcases hc with (h | h) | h
      · exact Or.inl h
      · exact Or.inr (by rw [h]; exact trimSpace_null)
      · exact Or.inr h
    simp only [hc, if_true]
    cases hu : json.Unmarshal b with
    | error err => simp
    | ok o =>
      cases o with
      | none => simp
      | some m =>
        have hm : m = [] := hjson b m hb hu
        subst hm
        simp
  · simp only [hc, Bool.false_eq_true, if_false]
    cases json.Unmarshal b with
    | error err => simp
    | ok o =>
      cases o with
      | none => simp
      | some m =>
        cases m with
        | nil => simp
        | cons kv rest => simp

theorem blobStep_valid (clk : Clock) (json : JsonLib) (hjson : json.NullIsEmpty)
    (tick : Nat) (b : String) (m : RawTokens) (hb : json.Unmarshal b = Except.ok (some m)) :
    (blobStep clk json ([], tick) b).1 = (extractTokens clk tick m).1 := by
  rw [blobStep_contribution clk json hjson]
  simp only [contribution, hb, List.nil_append]
  cases m with
  | nil => rfl
  | cons kv rest => simp

theorem exampleJson_nullIsEmpty : exampleJson.NullIsEmpty := by
  intro blob m hb hu
  simp only [exampleJson] at hu
  by_cases h1 : blob = validBlob
  · subst h1
    rcases hb with h | h
    · exact absurd h (by decide)
    · exact absurd h (by decide)
  · simp only [h1, if_false] at hu
    by_cases h2 : blob = "\x7b\x7d"
    · simp only [h2, if_true, Except.ok.injEq, Option.some.injEq] at hu
      exact hu.symm
    · simp only [h2, if_false] at hu
      split at hu <;> simp at hu

/-! ## Claims on the consolidator -/

/-- C5: the list `processAllTokens` returns is the concatenation, in the order session,
http, body, custom, of the contributions of the four blobs: a blob that parses to a
non-empty collection contributes `extractTokens` of that collection (run at the clock
position reached so far), every other blob contributes nothing; the error is nil. -/
theorem C5_processAllTokens_concat (clk : Clock) (json : JsonLib) (hjson : json.NullIsEmpty)
    (w : World) (sessionTokens httpTokens bodyTokens customTokens : String) :
    (processAllTokens clk json w sessionTokens httpTokens bodyTokens customTokens).1 =
      ((contribution clk json w.tick sessionTokens).1 ++
        (contribution clk json (contribution clk json w.tick sessionTokens).2 httpTokens).1 ++
        (contribution clk json
          (contribution clk json
            (contribution clk json w.tick sessionTokens).2 httpTokens).2 bodyTokens).1 ++
        (contribution clk json
          (contribution clk json
            (contribution clk json
              (contribution clk json w.tick sessionTokens).2 httpTokens).2 bodyTokens).2
          customTokens).1,
       none) := by
  have ht := processAllTokens_tokens clk json w sessionTokens httpTokens bodyTokens customTokens
  have he : (processAllTokens clk json w sessionTokens httpTokens bodyTokens customTokens).1.2 =
      none := rfl
  refine Prod.ext ?_ he
  rw [ht]
  simp only [blobStep_contribution clk json hjson, List.nil_append, List.append_assoc]

/-- The witness of C5: the blobs of the first consolidation example of the specification,
where only the third blob parses to a non-empty collection. -/
theorem C5_processAllTokens_concat_witness :
    exampleJson.NullIsEmpty ∧
    (processAllTokens exampleClock exampleJson World.init "" "null" validBlob "").1 =
      ((extractTokens exampleClock 0 validMap).1, none) :=
  ⟨exampleJson_nullIsEmpty,
    (C5_processAllTokens_concat exampleClock exampleJson exampleJson_nullIsEmpty World.init
      "" "null" validBlob "").trans rfl⟩

/-- C6: a blob that is empty, is `null` (also with surrounding white space) or fails to
deserialise contributes no tokens and does not abort the call: the error returned is nil,
and in each of the four positions the token list is the one obtained with the empty string
in that position.  In particular `processAllTokens "" "null" valid ""` returns the tokens
of `valid`, and `processAllTokens malformed valid "" ""` returns the tokens of `valid`. -/
theorem C6_skipped_blob_contributes_nothing (clk : Clock) (json : JsonLib)
    (hjson : json.NullIsEmpty) (w : World) :
    (∀ s h b c, (processAllTokens clk json w s h b c).1.2 = none) ∧
    (∀ x, Skipped json x → ∀ s h b c,
      (processAllTokens clk json w x h b c).1.1 = (processAllTokens clk json w "" h b c).1.1 ∧
      (processAllTokens clk json w s x b c).1.1 = (processAllTokens clk json w s "" b c).1.1 ∧
      (processAllTokens clk json w s h x c).1.1 = (processAllTokens clk json w s h "" c).1.1 ∧
      (processAllTokens clk json w s h b x).1.1 = (processAllTokens clk json w s h b "").1.1) ∧
    (∀ valid m, json.Unmarshal valid = Except.ok (some m) →
      (processAllTokens clk json w "" "null" valid "").1.1 = (extractTokens clk w.tick m).1) ∧
    (∀ malformed err valid m, json.Unmarshal malformed = Except.error err →
      json.Unmarshal valid = Except.ok (some m) →
      (processAllTokens clk json w malformed valid "" "").1.1 =
        (extractTokens clk w.tick m).1) := by
  refine ⟨fun _ _ _ _ => rfl, fun x hx s h b c => ?_, fun valid m hv => ?_,
    fun malformed err valid m hm hv => ?_⟩
  · simp only [processAllTokens_tokens, blobStep_skipped clk json _ x hx, blobStep_empty,
      and_self]
  · simp only [processAllTokens_tokens, blobStep_empty,
      blobStep_skipped clk json _ "null" (Or.inr (Or.inl rfl)),
      blobStep_valid clk json hjson w.tick valid m hv]
  · simp only [processAllTokens_tokens, blobStep_empty,
      blobStep_skipped clk json _ malformed (Or.inr (Or.inr (Or.inr ⟨err, hm⟩))),
      blobStep_valid clk json hjson w.tick valid m hv]

/-- The witness of C6: a malformed first blob and a valid second blob. -/
theorem C6_skipped_blob_contributes_nothing_witness :
    exampleJson.NullIsEmpty ∧
    Skipped exampleJson "\x7bmalformed" ∧
    (processAllTokens exampleClock exampleJson World.init "  null\n" validBlob "" "").1.1 =
      (processAllTokens exampleClock exampleJson World.init "" validBlob "" "").1.1 ∧
    (processAllTokens exampleClock exampleJson World.init "\x7bmalformed" validBlob "" "").1.1 =
      (extractTokens exampleClock 0 validMap).1 :=
  ⟨exampleJson_nullIsEmpty,
    Or.inr (Or.inr (Or.inr ⟨"invalid character", rfl⟩)),
    ((C6_skipped_blob_contributes_nothing exampleClock exampleJson exampleJson_nullIsEmpty
      World.init).2.1 "  null\n" (Or.inr (Or.inr (Or.inl (by decide)))) "" validBlob "" "").1,
    (C6_skipped_blob_contributes_nothing exampleClock exampleJson exampleJson_nullIsEmpty
      World.init).2.2.2 "\x7bmalformed" "invalid character" validBlob validMap
      rfl rfl⟩

/-! ## Lemmas on maps and on session keys -/

theorem GoMap.lookup_set_self {V : Type} (m : GoMap V) (k : String) (v : V) :
    (m.set k v).lookup k = some v := by
  induction m with
  | nil => simp [GoMap.set, GoMap.lookup]
  | cons kv rest ih =>
    by_cases h : kv.1 = k
    · simp [GoMap.set, GoMap.lookup, h]
    · simp [GoMap.set, GoMap.lookup, h, ih]

theorem GoMap.lookup_set_ne {V : Type} (m : GoMap V) (k k' : String) (v : V) (hk : k ≠ k') :
    (m.set k v).lookup k' = m.lookup k' := by
  induction m with
  | nil => simp [GoMap.set, GoMap.lookup, hk]
  | cons kv rest ih =>
    obtain ⟨k0, v0⟩ := kv
    simp only [GoMap.set]
    by_cases h : k0 = k
    · subst h
      simp [GoMap.lookup, hk]
    · by_cases h2 : k0 = k'
      · subst h2
        simp [h, GoMap.lookup]
      · simp [h, h2, GoMap.lookup, ih]

theorem digitChar_val (k : Nat) (hk : k < 10) : (Nat.digitChar k).toNat - 48 = k := by
  interval_cases k <;> rfl

theorem digitChar_ne_minus (k : Nat) (hk : k < 10) : Nat.digitChar k ≠ '-' := by
  interval_cases k <;> decide

theorem toDigitsCore_decode (fuel : Nat) : ∀ (n : Nat) (ds : List Char), n < fuel →
    (Nat.toDigitsCore 10 fuel n ds).foldl (fun a c => 10 * a + (c.toNat - 48)) 0 =
      ds.foldl (fun a c => 10 * a + (c.toNat - 48)) n := by
  induction fuel with
  | zero => intro n ds h; omega
  | succ fuel ih =>
    intro n ds h
    simp only [Nat.toDigitsCore]
    split
    · rename_i h0
      simp only [List.foldl_cons, Nat.mul_zero, Nat.zero_add]
      rw [digitChar_val _ (Nat.mod_lt _ (by decide))]
      have : n % 10 = n := by omega
      rw [this]
    · rename_i h0
      rw [ih (n / 10) _ (by omega)]
      simp only [List.foldl_cons]
      rw [digitChar_val _ (Nat.mod_lt _ (by decide))]
      have : 10 * (n / 10) + n % 10 = n := by omega
      rw [this]

theorem toDigitsCore_no_minus (fuel : Nat) : ∀ (n : Nat) (ds : List Char), '-' ∉ ds →
    '-' ∉ Nat.toDigitsCore 10 fuel n ds := by
  induction fuel with
  | zero => intro n ds h; simpa [Nat.toDigitsCore] using h
  | succ fuel ih =>
    intro n ds h
    have hd : '-' ∉ Nat.digitChar (n % 10) :: ds := by
      intro hm
      rcases List.mem_cons.1 hm with h1 | h1
      · exact digitChar_ne_minus _ (Nat.mod_lt _ (by decide)) h1.symm
      · exact h h1
    simp only [Nat.toDigitsCore]
    split
    · exact hd
    · exact ih _ _ hd

theorem natRepr_injective (n m : Nat) (h : Nat.repr n = Nat.repr m) : n = m := by
  have h1 : Nat.toDigits 10 n = Nat.toDigits 10 m := congrArg String.data h
  have hn := toDigitsCore_decode (n + 1) n [] (Nat.lt_succ_self n)
  have hm := toDigitsCore_decode (m + 1) m [] (Nat.lt_succ_self m)
  simp only [List.foldl_nil] at hn hm
  unfold Nat.toDigits at h1
  rw [h1] at hn
  omega

theorem natRepr_no_minus (n : Nat) : '-' ∉ (Nat.repr n).data :=
  toDigitsCore_no_minus _ _ [] (by simp)

theorem intToString_injective (a b : Int) (h : toString a = toString b) : a = b := by
  cases a with
  | ofNat n =>
    cases b with
    | ofNat m =>
      have : Nat.repr n = Nat.repr m := h
      rw [natRepr_injective n m this]
    | negSucc m =>
      exfalso
      have h' : Nat.repr n = "-" ++ Nat.repr (m + 1) := h
      exact natRepr_no_minus n (by rw [h']; simp)
  | negSucc n =>
    cases b with
    | ofNat m =>
      exfalso
      have h' : "-" ++ Nat.repr (n + 1) = Nat.repr m := h
      exact natRepr_no_minus m (by rw [← h']; simp)
    | negSucc m =>
      have h' : "-" ++ Nat.repr (n + 1) = "-" ++ Nat.repr (m + 1) := h
      have h2 : Nat.repr (n + 1) = Nat.repr (m + 1) := by
        have := congrArg String.data h'
        simp only [String.data_append, List.append_cancel_left_eq] at this
        exact String.ext this
      have := natRepr_injective _ _ h2
      have : n = m := by omega
      rw [this]

theorem sessionKey_eq_iff (s t : Session) : sessionKey s = sessionKey t ↔ s.ID = t.ID :=
  ⟨intToString_injective _ _, fun h => by simp [sessionKey, h]⟩

/-! ## Lemmas on the orchestrator -/

theorem processBlob_dedup (clk : Clock) (json : JsonLib) (st : ConsState) (b : String) :
    (processBlob clk json st b).2.dedup = st.2.dedup := by
  unfold processBlob
  split
  · rfl
  · split
    · rfl
    · split
      · split <;> rfl
      · rfl

theorem processBlob_files (clk : Clock) (json : JsonLib) (st : ConsState) (b : String) :
    (processBlob clk json st b).2.files = st.2.files := by
  unfold processBlob
  split
  · rfl
  · split
    · rfl
    · split
      · split <;> rfl
      · rfl

theorem processAllTokens_dedup (clk : Clock) (json : JsonLib) (w : World) (s h b c : String) :
    (processAllTokens clk json w s h b c).2.dedup = w.dedup := by
  simp only [processAllTokens, List.foldl_cons, List.foldl_nil, processBlob_dedup]

theorem processAllTokens_files (clk : Clock) (json : JsonLib) (w : World) (s h b c : String) :
    (processAllTokens clk json w s h b c).2.files = w.files := by
  simp only [processAllTokens, List.foldl_cons, List.foldl_nil, processBlob_files]

theorem createTxtFile_dedup (clk : Clock) (json : JsonLib) (o : Outcomes) (w : World)
    (s : Session) : (createTxtFile clk json o w s).2.dedup = w.dedup := by
  unfold createTxtFile generateRandomString
  simp only
  split
  · rfl
  · split
    · rfl
    · split
      · rfl
      · split
        · rfl
        · split
          · rfl
          · split <;> split <;> exact processAllTokens_dedup clk json _ _ _ _ _

theorem createTxtFile_pair (clk : Clock) (json : JsonLib) (o : Outcomes) (w : World)
    (s : Session) (r : Except String String) (hf : (createTxtFile clk json o w s).1 = r) :
    createTxtFile clk json o w s = (r, (createTxtFile clk json o w s).2) := by
  rw [← hf]

theorem alreadyProcessed_iff (w : World) (s : Session) :
    alreadyProcessed w s = true ↔ w.processedSessions.lookup (sessionKey s) = some true := by
  unfold alreadyProcessed
  cases w.processedSessions.lookup (sessionKey s) with
  | none => simp
  | some b => simp

theorem Notify_config_error (clk : Clock) (json : JsonLib) (o : Outcomes) (w : World)
    (s : Session) (err : String) (hcfg : o.loadConfig = Except.error err) :
    (Notify clk json o w s).dedup = w.dedup := by
  simp only [Notify, hcfg]
  rfl

theorem Notify_no_handle (clk : Clock) (json : JsonLib) (o : Outcomes) (w : World)
    (s : Session) (ha : alreadyProcessed w s = true)
    (hm : w.sessionMessageMap.lookup (sessionKey s) = none) :
    (Notify clk json o w s).dedup = w.dedup := by
  unfold Notify
  cases o.loadConfig with
  | error err => rfl
  | ok cfg =>
    simp only [ha, if_true, hm]
    rfl

theorem Notify_update_file_error (clk : Clock) (json : JsonLib) (o : Outcomes) (w : World)
    (s : Session) (err : String) (ha : alreadyProcessed w s = true)
    (hf : (createTxtFile clk json o w s).1 = Except.error err) :
    (Notify clk json o w s).dedup = w.dedup := by
  unfold Notify
  cases o.loadConfig with
  | error e => rfl
  | ok cfg =>
    simp only [ha, if_true]
    cases w.sessionMessageMap.lookup (sessionKey s) with
    | none => rfl
    | some h =>
      simp only
      rw [createTxtFile_pair clk json o w s _ hf]
      exact createTxtFile_dedup clk json o w s

theorem Notify_edit (clk : Clock) (json : JsonLib) (o : Outcomes) (w : World)
    (s : Session) (cfg : Config) (h : Int) (p : String)
    (hcfg : o.loadConfig = Except.ok cfg) (ha : alreadyProcessed w s = true)
    (hm : w.sessionMessageMap.lookup (sessionKey s) = some h)
    (hf : (createTxtFile clk json o w s).1 = Except.ok p) :
    (Notify clk json o w s).dedup =
      (w.processedSessions, w.sessionMessageMap,
        w.invocations ++ [Event.edit (sessionKey s) cfg.TelegramChatID cfg.TelegramToken h p
          ((createTxtFile clk json o w s).2.files.lookup p) (formatSessionMessage s)]) := by
  have hd := createTxtFile_dedup clk json o w s
  simp only [World.dedup, Prod.mk.injEq] at hd
  obtain ⟨h1, h2, h3⟩ := hd
  unfold Notify
  simp only [hcfg, ha, if_true, hm]
  rw [createTxtFile_pair clk json o w s _ hf]
  simp only
  cases o.edit with
  | none => simp [World.dedup, World.remove, World.invoke, h1, h2, h3]
  | some e => simp [World.dedup, World.remove, World.invoke, World.print, h1, h2, h3]

theorem Notify_new_file_error (clk : Clock) (json : JsonLib) (o : Outcomes) (w : World)
    (s : Session) (cfg : Config) (err : String)
    (hcfg : o.loadConfig = Except.ok cfg) (ha : alreadyProcessed w s = false)
    (hf : (createTxtFile clk json o
      { w with processedSessions := w.processedSessions.set (sessionKey s) true } s).1 =
        Except.error err) :
    (Notify clk json o w s).dedup =
      (w.processedSessions.set (sessionKey s) true, w.sessionMessageMap, w.invocations) := by
  have hd := createTxtFile_dedup clk json o
    { w with processedSessions := w.processedSessions.set (sessionKey s) true } s
  unfold Notify
  simp only [hcfg, ha, Bool.false_eq_true, if_false]
  rw [createTxtFile_pair clk json o _ s _ hf]
  exact hd

theorem Notify_new_send (clk : Clock) (json : JsonLib) (o : Outcomes) (w : World)
    (s : Session) (cfg : Config) (p : String)
    (hcfg : o.loadConfig = Except.ok cfg) (ha : alreadyProcessed w s = false)
    (hf : (createTxtFile clk json o
      { w with processedSessions := w.processedSessions.set (sessionKey s) true } s).1 =
        Except.ok p) :
    (Notify clk json o w s).dedup =
      (w.processedSessions.set (sessionKey s) true,
        (match o.send with
          | Except.ok h => w.sessionMessageMap.set (sessionKey s) h
          | Except.error _ => w.sessionMessageMap),
        w.invocations ++ [Event.create (sessionKey s) cfg.TelegramChatID cfg.TelegramToken
          (formatSessionMessage s) p
          ((createTxtFile clk json o
            { w with processedSessions := w.processedSessions.set (sessionKey s) true }
            s).2.files.lookup p)]) := by
  have hd := createTxtFile_dedup clk json o
    { w with processedSessions := w.processedSessions.set (sessionKey s) true } s
  simp only [World.dedup, Prod.mk.injEq] at hd
  obtain ⟨h1, h2, h3⟩ := hd
  unfold Notify
  simp only [hcfg, ha, Bool.false_eq_true, if_false]
  rw [createTxtFile_pair clk json o _ s _ hf]
  simp only
  cases o.send with
  | error e => simp [World.dedup, World.remove, World.invoke, World.print, h1, h2, h3]
  | ok hh => simp [World.dedup, World.remove, World.invoke, h1, h2, h3]

theorem Notify_shape (clk : Clock) (json : JsonLib) (o : Outcomes) (w : World) (s : Session) :
    (Notify clk json o w s).dedup = w.dedup ∨
    (alreadyProcessed w s = true ∧ ∃ e, e.isCreate = false ∧
      (Notify clk json o w s).dedup =
        (w.processedSessions, w.sessionMessageMap, w.invocations ++ [e])) ∨
    ((∃ cfg, o.loadConfig = Except.ok cfg) ∧ alreadyProcessed w s = false ∧
      (Notify clk json o w s).processedSessions = w.processedSessions.set (sessionKey s) true ∧
      ((Notify clk json o w s).sessionMessageMap = w.sessionMessageMap ∨
        ∃ h, (Notify clk json o w s).sessionMessageMap =
          w.sessionMessageMap.set (sessionKey s) h) ∧
      ((Notify clk json o w s).invocations = w.invocations ∨
        ∃ e, e.isCreateFor (sessionKey s) = true ∧
          (Notify clk json o w s).invocations = w.invocations ++ [e])) := by
  cases hcfg : o.loadConfig with
  | error err => exact Or.inl (Notify_config_error clk json o w s err hcfg)
  | ok cfg =>
    cases ha : alreadyProcessed w s with
    | true =>
      cases hm : w.sessionMessageMap.lookup (sessionKey s) with
      | none => exact Or.inl (Notify_no_handle clk json o w s ha hm)
      | some h =>
        cases hf : (createTxtFile clk json o w s).1 with
        | error err => exact Or.inl (Notify_update_file_error clk json o w s err ha hf)
        | ok p =>
          exact Or.inr (Or.inl ⟨rfl,
            Event.edit (sessionKey s) cfg.TelegramChatID cfg.TelegramToken h p
              ((createTxtFile clk json o w s).2.files.lookup p) (formatSessionMessage s),
            rfl, Notify_edit clk json o w s cfg h p hcfg ha hm hf⟩)
    | false =>
      refine Or.inr (Or.inr ⟨⟨cfg, rfl⟩, rfl, ?_⟩)
      cases hf : (createTxtFile clk json o
          { w with processedSessions := w.processedSessions.set (sessionKey s) true } s).1 with
      | error err =>
        have hd := Notify_new_file_error clk json o w s cfg err hcfg ha hf
        simp only [World.dedup, Prod.mk.injEq] at hd
        exact ⟨hd.1, Or.inl hd.2.1, Or.inl hd.2.2⟩
      | ok p =>
        have hd := Notify_new_send clk json o w s cfg p hcfg ha hf
        simp only [World.dedup, Prod.mk.injEq] at hd
        refine ⟨hd.1, ?_, Or.inr ⟨_, ?_, hd.2.2⟩⟩
        · rw [hd.2.1]
          cases o.send with
          | error e => exact Or.inl rfl
          | ok h => exact Or.inr ⟨h, rfl⟩
        · simp [Event.isCreateFor]

theorem Notify_processed_self (clk : Clock) (json : JsonLib) (o : Outcomes) (w : World)
    (s : Session) (cfg : Config) (hcfg : o.loadConfig = Except.ok cfg) :
    (Notify clk json o w s).processedSessions.lookup (sessionKey s) = some true := by
  rcases Notify_shape clk json o w s with h | ⟨ha, e, _, h⟩ | ⟨_, ha, hp, _, _⟩
  · have hp : (Notify clk json o w s).processedSessions = w.processedSessions :=
      congrArg (fun d => d.1) h
    rw [hp]
    cases ha : alreadyProcessed w s with
    | true => exact (alreadyProcessed_iff w s).1 ha
    | false =>
      exfalso
      cases hf : (createTxtFile clk json o
          { w with processedSessions := w.processedSessions.set (sessionKey s) true } s).1 with
      | error err =>
        have hd := Notify_new_file_error clk json o w s cfg err hcfg ha hf
        rw [h] at hd
        have h1 : w.processedSessions = w.processedSessions.set (sessionKey s) true :=
          congrArg (fun d => d.1) hd
        have h2 := GoMap.lookup_set_self w.processedSessions (sessionKey s) true
        rw [← h1] at h2
        have h3 := (alreadyProcessed_iff w s).2 h2
        rw [ha] at h3
        exact Bool.false_ne_true h3
      | ok p =>
        have hd := Notify_new_send clk json o w s cfg p hcfg ha hf
        rw [h] at hd
        have h1 : w.processedSessions = w.processedSessions.set (sessionKey s) true :=
          congrArg (fun d => d.1) hd
        have h2 := GoMap.lookup_set_self w.processedSessions (sessionKey s) true
        rw [← h1] at h2
        have h3 := (alreadyProcessed_iff w s).2 h2
        rw [ha] at h3
        exact Bool.false_ne_true h3
  · have hp : (Notify clk json o w s).processedSessions = w.processedSessions :=
      congrArg (fun d => d.1) h
    rw [hp]
    exact (alreadyProcessed_iff w s).1 ha
  · rw [hp]
    exact GoMap.lookup_set_self _ _ _

theorem Notify_processed_other (clk : Clock) (json : JsonLib) (o : Outcomes) (w : World)
    (s : Session) (k : String) (hk : sessionKey s ≠ k) :
    (Notify clk json o w s).processedSessions.lookup k = w.processedSessions.lookup k := by
  rcases Notify_shape clk json o w s with h | ⟨_, e, _, h⟩ | ⟨_, _, hp, _, _⟩
  · rw [show (Notify clk json o w s).processedSessions = w.processedSessions from
      congrArg (fun d => d.1) h]
  · rw [show (Notify clk json o w s).processedSessions = w.processedSessions from
      congrArg (fun d => d.1) h]
  · rw [hp]
    exact GoMap.lookup_set_ne _ _ _ _ hk

theorem Notify_processed_mono (clk : Clock) (json : JsonLib) (o : Outcomes) (w : World)
    (s : Session) (k : String) (hk : w.processedSessions.lookup k = some true) :
    (Notify clk json o w s).processedSessions.lookup k = some true := by
  by_cases hks : sessionKey s = k
  · subst hks
    rcases Notify_shape clk json o w s with h | ⟨_, e, _, h⟩ | ⟨_, ha, _, _, _⟩
    · rw [show (Notify clk json o w s).processedSessions = w.processedSessions from
        congrArg (fun d => d.1) h]
      exact hk
    · rw [show (Notify clk json o w s).processedSessions = w.processedSessions from
        congrArg (fun d => d.1) h]
      exact hk
    · have := (alreadyProcessed_iff w s).2 hk
      rw [ha] at this
      exact absurd this Bool.false_ne_true
  · rw [Notify_processed_other clk json o w s k hks]
    exact hk

theorem Notify_handle_of_processed (clk : Clock) (json : JsonLib) (o : Outcomes) (w : World)
    (s : Session) (k : String) (hk : w.processedSessions.lookup k = some true) :
    (Notify clk json o w s).sessionMessageMap.lookup k = w.sessionMessageMap.lookup k := by
  rcases Notify_shape clk json o w s with h | ⟨_, e, _, h⟩ | ⟨_, ha, _, hm, _⟩
  · rw [show (Notify clk json o w s).sessionMessageMap = w.sessionMessageMap from
      congrArg (fun d => d.2.1) h]
  · rw [show (Notify clk json o w s).sessionMessageMap = w.sessionMessageMap from
      congrArg (fun d => d.2.1) h]
  · rcases hm with hm | ⟨h, hm⟩
    · rw [hm]
    · rw [hm]
      apply GoMap.lookup_set_ne
      intro hks
      subst hks
      have := (alreadyProcessed_iff w s).2 hk
      rw [ha] at this
      exact absurd this Bool.false_ne_true

theorem Notify_handle_other (clk : Clock) (json : JsonLib) (o : Outcomes) (w : World)
    (s : Session) (k : String) (hk : sessionKey s ≠ k) :
    (Notify clk json o w s).sessionMessageMap.lookup k = w.sessionMessageMap.lookup k := by
  rcases Notify_shape clk json o w s with h | ⟨_, e, _, h⟩ | ⟨_, ha, _, hm, _⟩
  · rw [show (Notify clk json o w s).sessionMessageMap = w.sessionMessageMap from
      congrArg (fun d => d.2.1) h]
  · rw [show (Notify clk json o w s).sessionMessageMap = w.sessionMessageMap from
      congrArg (fun d => d.2.1) h]
  · rcases hm with hm | ⟨h, hm⟩
    · rw [hm]
    · rw [hm]
      exact GoMap.lookup_set_ne _ _ _ _ hk

theorem run_append (clk : Clock) (json : JsonLib) (w : World) (a b : List Call) :
    run clk json w (a ++ b) = run clk json (run clk json w a) b := by
  simp [run, List.foldl_append]

theorem run_cons (clk : Clock) (json : JsonLib) (w : World) (c : Call) (rest : List Call) :
    run clk json w (c :: rest) = run clk json (Notify clk json c.outcomes w c.session) rest :=
  rfl

theorem run_processed_mono (clk : Clock) (json : JsonLib) (calls : List Call) (w : World)
    (k : String) (hk : w.processedSessions.lookup k = some true) :
    (run clk json w calls).processedSessions.lookup k = some true := by
  induction calls generalizing w with
  | nil => exact hk
  | cons c rest ih =>
    rw [run_cons]
    exact ih _ (Notify_processed_mono clk json _ w _ k hk)

theorem run_handle_of_processed (clk : Clock) (json : JsonLib) (calls : List Call) (w : World)
    (k : String) (hk : w.processedSessions.lookup k = some true) :
    (run clk json w calls).sessionMessageMap.lookup k = w.sessionMessageMap.lookup k := by
  induction calls generalizing w with
  | nil => rfl
  | cons c rest ih =>
    rw [run_cons, ih _ (Notify_processed_mono clk json _ w _ k hk)]
    exact Notify_handle_of_processed clk json _ w _ k hk

theorem run_untouched (clk : Clock) (json : JsonLib) (calls : List Call) (w : World)
    (k : String) (hk : ∀ c ∈ calls, sessionKey c.session ≠ k) :
    (run clk json w calls).processedSessions.lookup k = w.processedSessions.lookup k ∧
    (run clk json w calls).sessionMessageMap.lookup k = w.sessionMessageMap.lookup k := by
  induction calls generalizing w with
  | nil => exact ⟨rfl, rfl⟩
  | cons c rest ih =>
    have hc := hk c (List.mem_cons_self _ _)
    have hr := ih (Notify clk json c.outcomes w c.session)
      (fun c' hc' => hk c' (List.mem_cons_of_mem _ hc'))
    rw [run_cons, hr.1, hr.2]
    exact ⟨Notify_processed_other clk json _ w _ k hc, Notify_handle_other clk json _ w _ k hc⟩

theorem run_processed_of_mem (clk : Clock) (json : JsonLib) (calls : List Call) (w : World)
    (hcfg : ∀ c ∈ calls, ∃ cfg, c.outcomes.loadConfig = Except.ok cfg)
    (c : Call) (hc : c ∈ calls) :
    (run clk json w calls).processedSessions.lookup (sessionKey c.session) = some true := by
  induction calls generalizing w with
  | nil => exact absurd hc (List.not_mem_nil _)
  | cons c0 rest ih =>
    rw [run_cons]
    rcases List.mem_cons.1 hc with h | h
    · subst h
      obtain ⟨cfg, hcfg0⟩ := hcfg c (List.mem_cons_self _ _)
      exact run_processed_mono clk json rest _ _
        (Notify_processed_self clk json _ w _ cfg hcfg0)
    · exact ih _ (fun c' hc' => hcfg c' (List.mem_cons_of_mem _ hc')) h

theorem isCreateFor_unique (e : Event) (k k' : String) (h : e.isCreateFor k = true)
    (h' : e.isCreateFor k' = true) : k = k' := by
  cases e with
  | create key _ _ _ _ _ =>
    simp only [Event.isCreateFor, beq_iff_eq] at h h'
    rw [← h, ← h']
  | edit _ _ _ _ _ _ _ => simp [Event.isCreateFor] at h

theorem isCreate_of_isCreateFor (e : Event) (k : String) (h : e.isCreateFor k = true) :
    e.isCreate = true := by
  cases e with
  | create _ _ _ _ _ _ => rfl
  | edit _ _ _ _ _ _ _ => simp [Event.isCreateFor] at h

theorem createCount_append_single (x : Int) (evs : List Event) (e : Event) :
    createCount x (evs ++ [e]) =
      createCount x evs + (if e.isCreateFor (toString x) = true then 1 else 0) := by
  simp [createCount, List.countP_append, List.countP_cons]

theorem Notify_createOnce (clk : Clock) (json : JsonLib) (o : Outcomes) (w : World)
    (s : Session) (hw : CreateOnce w) : CreateOnce (Notify clk json o w s) := by
  intro x
  obtain ⟨hle, hzero⟩ := hw x
  rcases Notify_shape clk json o w s with h | ⟨_, e, he, h⟩ | ⟨_, ha, hp, _, hi⟩
  · simp only [World.dedup, Prod.mk.injEq] at h
    rw [h.1, h.2.2]
    exact ⟨hle, hzero⟩
  · simp only [World.dedup, Prod.mk.injEq] at h
    have hne : ¬ e.isCreateFor (toString x) = true := fun hc => by
      rw [isCreate_of_isCreateFor e _ hc] at he
      exact Bool.noConfusion he
    rw [h.1, h.2.2, createCount_append_single, if_neg hne]
    exact ⟨hle, hzero⟩
  · by_cases hk : sessionKey s = toString x
    · have hnot : w.processedSessions.lookup (toString x) ≠ some true := by
        intro hl
        rw [← hk] at hl
        have := (alreadyProcessed_iff w s).2 hl
        rw [ha] at this
        exact Bool.false_ne_true this
      have h0 := hzero hnot
      have hproc : (Notify clk json o w s).processedSessions.lookup (toString x) = some true := by
        rw [hp, ← hk]
        exact GoMap.lookup_set_self _ _ _
      rcases hi with hi | ⟨e, _, hi⟩
      · rw [hi, h0]
        exact ⟨Nat.zero_le _, fun hn => absurd hproc hn⟩
      · rw [hi, createCount_append_single, h0]
        refine ⟨?_, fun hn => absurd hproc hn⟩
        split <;> omega
    · have hproc : (Notify clk json o w s).processedSessions.lookup (toString x) =
          w.processedSessions.lookup (toString x) := by
        rw [hp]
        exact GoMap.lookup_set_ne _ _ _ _ hk
      rw [hproc]
      rcases hi with hi | ⟨e, he, hi⟩
      · rw [hi]
        exact ⟨hle, hzero⟩
      · have hne : ¬ e.isCreateFor (toString x) = true := fun hc =>
          hk (isCreateFor_unique e _ _ he hc)
        rw [hi, createCount_append_single, if_neg hne]
        exact ⟨hle, hzero⟩

theorem run_createOnce (clk : Clock) (json : JsonLib) (calls : List Call) (w : World)
    (hw : CreateOnce w) : CreateOnce (run clk json w calls) := by
  induction calls generalizing w with
  | nil => exact hw
  | cons c rest ih => exact ih _ (Notify_createOnce clk json _ w _ hw)

theorem init_createOnce : CreateOnce World.init := by
  intro x
  exact ⟨Nat.zero_le _, fun _ => rfl⟩

theorem createTxtFile_ok (clk : Clock) (json : JsonLib) (o : Outcomes) (w : World)
    (s : Session) (hb : attachmentBuilds json o s = true) :
    (createTxtFile clk json o w s).1 = Except.ok (txtFilePathOf o) ∧
    ∃ text, (createTxtFile clk json o w s).2.files.lookup (txtFilePathOf o) = some text := by
  simp only [attachmentBuilds, Bool.and_eq_true, Option.isNone_iff_eq_none] at hb
  obtain ⟨⟨⟨⟨⟨h1, h2⟩, h3⟩, h4⟩, h5⟩, h6⟩ := hb
  unfold createTxtFile generateRandomString txtFilePathOf
  simp only [h1, h6]
  cases h2' : json.MarshalIndentMap (s.Tokens.getD []) with
  | error e => rw [h2'] at h2; exact absurd h2 (by simp [Except.isOk, Except.toBool])
  | ok v2 =>
    cases h3' : json.MarshalIndentMap (s.HTTPTokens.getD []) with
    | error e => rw [h3'] at h3; exact absurd h3 (by simp [Except.isOk, Except.toBool])
    | ok v3 =>
      cases h4' : json.MarshalIndentMap (s.BodyTokens.getD []) with
      | error e => rw [h4'] at h4; exact absurd h4 (by simp [Except.isOk, Except.toBool])
      | ok v4 =>
        cases h5' : json.MarshalIndentMap (s.Custom.getD []) with
        | error e => rw [h5'] at h5; exact absurd h5 (by simp [Except.isOk, Except.toBool])
        | ok v5 =>
          simp only
          split <;> exact ⟨trivial, _, GoMap.lookup_set_self _ _ _⟩

theorem init_lookup (k : String) :
    World.init.processedSessions.lookup k = none ∧ World.init.sessionMessageMap.lookup k = none :=
  ⟨rfl, rfl⟩

theorem run_before_first (clk : Clock) (json : JsonLib) (pre : List Call) (s : Session)
    (hpre : ∀ c ∈ pre, c.session.ID ≠ s.ID) :
    (run clk json World.init pre).processedSessions.lookup (sessionKey s) = none ∧
    (run clk json World.init pre).sessionMessageMap.lookup (sessionKey s) = none := by
  have h := run_untouched clk json pre World.init (sessionKey s)
    (fun c hc hk => hpre c hc ((sessionKey_eq_iff _ _).1 hk))
  rw [h.1, h.2]
  exact init_lookup _

theorem not_alreadyProcessed_of_none (w : World) (s : Session)
    (h : w.processedSessions.lookup (sessionKey s) = none) : alreadyProcessed w s = false := by
  simp [alreadyProcessed, h]

/-! ## Claims on the orchestrator -/

/-- C1: in a sequential run of `Notify` calls from process start in which every
configuration load succeeds, the check of line 232 reports "first time" for a call exactly
when no earlier call of the run carried the same session id, and "already processed"
otherwise; and for every session id the create collaborator is invoked at most once in the
whole run. -/
theorem C1_first_time_exactly_once (clk : Clock) (json : JsonLib) (calls : List Call)
    (hcfg : ∀ c ∈ calls, ∃ cfg, c.outcomes.loadConfig = Except.ok cfg) :
    (∀ pre c post, calls = pre ++ c :: post →
      (alreadyProcessed (run clk json World.init pre) c.session = false ↔
        ∀ c' ∈ pre, c'.session.ID ≠ c.session.ID)) ∧
    (∀ x : Int, createCount x (run clk json World.init calls).invocations ≤ 1) := by
  refine ⟨fun pre c post hcalls => ⟨fun hfirst c' hc' hid => ?_, fun hnone => ?_⟩,
    fun x => (run_createOnce clk json calls World.init init_createOnce x).1⟩
  · have hcfg' : ∀ d ∈ pre, ∃ cfg, d.outcomes.loadConfig = Except.ok cfg := fun d hd =>
      hcfg d (by rw [hcalls]; exact List.mem_append_left _ hd)
    have hp := run_processed_of_mem clk json pre World.init hcfg' c' hc'
    rw [(sessionKey_eq_iff c'.session c.session).2 hid] at hp
    have := (alreadyProcessed_iff _ c.session).2 hp
    rw [hfirst] at this
    exact Bool.false_ne_true this
  · exact not_alreadyProcessed_of_none _ _ (run_before_first clk json pre c.session hnone).1

/-- The witness of C1: session 42 observed twice, session 7 once in between. -/
theorem C1_first_time_exactly_once_witness :
    alreadyProcessed (run exampleClock exampleJson World.init []) (exampleSession 42) = false ∧
    alreadyProcessed
      (run exampleClock exampleJson World.init
        [⟨sendOk, exampleSession 42⟩, ⟨sendOk, exampleSession 7⟩]) (exampleSession 42) = true ∧
    createCount 42
      (run exampleClock exampleJson World.init
        [⟨sendOk, exampleSession 42⟩, ⟨sendOk, exampleSession 7⟩,
         ⟨sendOk, exampleSession 42⟩]).invocations ≤ 1 := by
  have h := C1_first_time_exactly_once exampleClock exampleJson
    [⟨sendOk, exampleSession 42⟩, ⟨sendOk, exampleSession 7⟩, ⟨sendOk, exampleSession 42⟩]
    (by
      intro c hc
      simp only [List.mem_cons, List.mem_singleton, List.not_mem_nil, or_false] at hc
      rcases hc with rfl | rfl | rfl <;> exact ⟨exampleConfig, rfl⟩)
  refine ⟨(h.1 [] _ _ rfl).2 (fun c' hc' => absurd hc' (List.not_mem_nil _)), ?_, h.2 42⟩
  have h2 := h.1 [⟨sendOk, exampleSession 42⟩, ⟨sendOk, exampleSession 7⟩]
    ⟨sendOk, exampleSession 42⟩ [] rfl
  cases hb : alreadyProcessed
      (run exampleClock exampleJson World.init
        [⟨sendOk, exampleSession 42⟩, ⟨sendOk, exampleSession 7⟩]) (exampleSession 42) with
  | true => rfl
  | false =>
    exact absurd rfl (h2.1 hb ⟨sendOk, exampleSession 42⟩ (List.mem_cons_self _ _))

/-- C2: if the first call for a session id (no earlier call of the run carries the id) loaded
its configuration, built its attachment and the create collaborator returned the handle
`h`, then every later call for the same id whose configuration loads and whose attachment
builds, the second one in particular, makes exactly one collaborator invocation: an edit
addressed to `h`, carrying the message formatted from the current session and the
attachment file just written for it; it makes no create. -/
theorem C2_second_call_edits_first_handle (clk : Clock) (json : JsonLib)
    (pre mid : List Call) (c1 c2 : Call) (h : Int) (cfg2 : Config)
    (hpre : ∀ c ∈ pre, c.session.ID ≠ c1.session.ID)
    (hcfg1 : ∃ cfg, c1.outcomes.loadConfig = Except.ok cfg)
    (hfile1 : attachmentBuilds json c1.outcomes c1.session = true)
    (hsend : c1.outcomes.send = Except.ok h)
    (hid : c2.session.ID = c1.session.ID)
    (hcfg2 : c2.outcomes.loadConfig = Except.ok cfg2)
    (hfile2 : attachmentBuilds json c2.outcomes c2.session = true) :
    (∃ text,
      (createTxtFile clk json c2.outcomes (run clk json World.init (pre ++ c1 :: mid))
        c2.session).2.files.lookup (txtFilePathOf c2.outcomes) = some text) ∧
    (run clk json World.init (pre ++ c1 :: (mid ++ [c2]))).invocations =
      (run clk json World.init (pre ++ c1 :: mid)).invocations ++
        [Event.edit (sessionKey c2.session) cfg2.TelegramChatID cfg2.TelegramToken h
          (txtFilePathOf c2.outcomes)
          ((createTxtFile clk json c2.outcomes (run clk json World.init (pre ++ c1 :: mid))
            c2.session).2.files.lookup (txtFilePathOf c2.outcomes))
          (formatSessionMessage c2.session)] := by
  obtain ⟨cfg1, hcfg1⟩ := hcfg1
  have hkey : sessionKey c2.session = sessionKey c1.session := (sessionKey_eq_iff _ _).2 hid
  -- the state after the first call
  have h0 := run_before_first clk json pre c1.session hpre
  have ha0 := not_alreadyProcessed_of_none _ _ h0.1
  have hf1 := (createTxtFile_ok clk json c1.outcomes
    { run clk json World.init pre with
      processedSessions :=
        (run clk json World.init pre).processedSessions.set (sessionKey c1.session) true }
    c1.session hfile1).1
  have hd1 := Notify_new_send clk json c1.outcomes (run clk json World.init pre) c1.session
    cfg1 _ hcfg1 ha0 hf1
  simp only [World.dedup, Prod.mk.injEq, hsend] at hd1
  have hp1 := Notify_processed_self clk json c1.outcomes (run clk json World.init pre)
    c1.session cfg1 hcfg1
  have hm1 : (Notify clk json c1.outcomes (run clk json World.init pre)
      c1.session).sessionMessageMap.lookup (sessionKey c1.session) = some h := by
    rw [hd1.2.1]
    exact GoMap.lookup_set_self _ _ _
  -- the state before the later call
  have hrun : run clk json World.init (pre ++ c1 :: mid) =
      run clk json (Notify clk json c1.outcomes (run clk json World.init pre) c1.session) mid := by
    rw [run_append, run_cons]
  have hp2 := run_processed_mono clk json mid _ _ hp1
  have hm2 := run_handle_of_processed clk json mid _ _ hp1
  rw [hm1, ← hrun] at hm2
  rw [← hrun] at hp2
  rw [← hkey] at hp2 hm2
  -- the later call
  have hf2 := createTxtFile_ok clk json c2.outcomes (run clk json World.init (pre ++ c1 :: mid))
    c2.session hfile2
  have hd2 := Notify_edit clk json c2.outcomes (run clk json World.init (pre ++ c1 :: mid))
    c2.session cfg2 h _ hcfg2 ((alreadyProcessed_iff _ _).2 hp2) hm2 hf2.1
  refine ⟨hf2.2, ?_⟩
  have hlast : run clk json World.init (pre ++ c1 :: (mid ++ [c2])) =
      Notify clk json c2.outcomes (run clk json World.init (pre ++ c1 :: mid)) c2.session := by
    rw [← List.cons_append, ← List.append_assoc, run_append]
    rfl
  rw [hlast]
  exact congrArg (fun d => d.2.2) hd2

/-- The witness of C2: session 42 is announced with handle 555, session 7 is observed, and
session 42 is observed again. -/
theorem C2_second_call_edits_first_handle_witness :
    attachmentBuilds exampleJson sendOk (exampleSession 42) = true ∧
    (run exampleClock exampleJson World.init
      ([] ++ (⟨sendOk, exampleSession 42⟩ : Call) ::
        ([⟨sendOk, exampleSession 7⟩] ++ [⟨secondOutcomes, exampleSession 42⟩]))).invocations =
      (run exampleClock exampleJson World.init
        ([] ++ (⟨sendOk, exampleSession 42⟩ : Call) ::
          [⟨sendOk, exampleSession 7⟩])).invocations ++
        [Event.edit "42" "-100123" "bot-token" 555 "/tmp/Z9y8X7w6V5.txt"
          ((createTxtFile exampleClock exampleJson secondOutcomes
            (run exampleClock exampleJson World.init
              ([] ++ (⟨sendOk, exampleSession 42⟩ : Call) :: [⟨sendOk, exampleSession 7⟩]))
            (exampleSession 42)).2.files.lookup "/tmp/Z9y8X7w6V5.txt")
          (formatSessionMessage (exampleSession 42))] :=
  ⟨rfl,
    (C2_second_call_edits_first_handle exampleClock exampleJson []
      [⟨sendOk, exampleSession 7⟩] ⟨sendOk, exampleSession 42⟩
      ⟨secondOutcomes, exampleSession 42⟩ 555 exampleConfig
      (fun _ hc => absurd hc (List.not_mem_nil _)) ⟨exampleConfig, rfl⟩ rfl rfl rfl rfl rfl).2⟩

/-- C3: if the first call for a session id loaded its configuration and built its
attachment and the create collaborator then failed, then after that call and after any
number of further calls the id is marked processed and has no stored handle, and a further
call for that id invokes no collaborator at all and leaves the dedup record as it is. -/
theorem C3_failed_send_drops_later_calls (clk : Clock) (json : JsonLib)
    (pre later : List Call) (c1 : Call) (err : String)
    (hpre : ∀ c ∈ pre, c.session.ID ≠ c1.session.ID)
    (hcfg1 : ∃ cfg, c1.outcomes.loadConfig = Except.ok cfg)
    (hfile1 : attachmentBuilds json c1.outcomes c1.session = true)
    (hsend : c1.outcomes.send = Except.error err) :
    (run clk json World.init (pre ++ c1 :: later)).processedSessions.lookup
      (sessionKey c1.session) = some true ∧
    (run clk json World.init (pre ++ c1 :: later)).sessionMessageMap.lookup
      (sessionKey c1.session) = none ∧
    ∀ c : Call, c.session.ID = c1.session.ID →
      (Notify clk json c.outcomes (run clk json World.init (pre ++ c1 :: later))
        c.session).invocations = (run clk json World.init (pre ++ c1 :: later)).invocations ∧
      (Notify clk json c.outcomes (run clk json World.init (pre ++ c1 :: later))
        c.session).processedSessions =
          (run clk json World.init (pre ++ c1 :: later)).processedSessions ∧
      (Notify clk json c.outcomes (run clk json World.init (pre ++ c1 :: later))
        c.session).sessionMessageMap =
          (run clk json World.init (pre ++ c1 :: later)).sessionMessageMap := by
  obtain ⟨cfg1, hcfg1⟩ := hcfg1
  have h0 := run_before_first clk json pre c1.session hpre
  have ha0 := not_alreadyProcessed_of_none _ _ h0.1
  have hf1 := (createTxtFile_ok clk json c1.outcomes
    { run clk json World.init pre with
      processedSessions :=
        (run clk json World.init pre).processedSessions.set (sessionKey c1.session) true }
    c1.session hfile1).1
  have hd1 := Notify_new_send clk json c1.outcomes (run clk json World.init pre) c1.session
    cfg1 _ hcfg1 ha0 hf1
  simp only [World.dedup, Prod.mk.injEq, hsend] at hd1
  have hp1 := Notify_processed_self clk json c1.outcomes (run clk json World.init pre)
    c1.session cfg1 hcfg1
  have hm1 : (Notify clk json c1.outcomes (run clk json World.init pre)
      c1.session).sessionMessageMap.lookup (sessionKey c1.session) = none := by
    rw [hd1.2.1]
    exact h0.2
  have hrun : run clk json World.init (pre ++ c1 :: later) =
      run clk json (Notify clk json c1.outcomes (run clk json World.init pre) c1.session)
        later := by
    rw [run_append, run_cons]
  have hp2 := run_processed_mono clk json later _ _ hp1
  have hm2 := run_handle_of_processed clk json later _ _ hp1
  rw [hm1, ← hrun] at hm2
  rw [← hrun] at hp2
  refine ⟨hp2, hm2, fun c hid => ?_⟩
  have hkey : sessionKey c.session = sessionKey c1.session := (sessionKey_eq_iff _ _).2 hid
  rw [← hkey] at hp2 hm2
  have hd := Notify_no_handle clk json c.outcomes _ c.session
    ((alreadyProcessed_iff _ _).2 hp2) hm2
  simp only [World.dedup, Prod.mk.injEq] at hd
  exact ⟨hd.2.2, hd.1, hd.2.1⟩

/-- The witness of C3: the send for session 42 fails, session 7 is observed, and session 42
is observed again. -/
theorem C3_failed_send_drops_later_calls_witness :
    sendFails.send = Except.error "telegram: 502" ∧
    (run exampleClock exampleJson World.init
      ([] ++ (⟨sendFails, exampleSession 42⟩ : Call) ::
        [⟨sendOk, exampleSession 7⟩])).sessionMessageMap.lookup "42" = none ∧
    (Notify exampleClock exampleJson sendOk
      (run exampleClock exampleJson World.init
        ([] ++ (⟨sendFails, exampleSession 42⟩ : Call) :: [⟨sendOk, exampleSession 7⟩]))
      (exampleSession 42)).invocations =
      (run exampleClock exampleJson World.init
        ([] ++ (⟨sendFails, exampleSession 42⟩ : Call) ::
          [⟨sendOk, exampleSession 7⟩])).invocations :=
  ⟨rfl,
    (C3_failed_send_drops_later_calls exampleClock exampleJson [] [⟨sendOk, exampleSession 7⟩]
      ⟨sendFails, exampleSession 42⟩ "telegram: 502"
      (fun _ hc => absurd hc (List.not_mem_nil _)) ⟨exampleConfig, rfl⟩ rfl rfl).2.1,
    ((C3_failed_send_drops_later_calls exampleClock exampleJson [] [⟨sendOk, exampleSession 7⟩]
      ⟨sendFails, exampleSession 42⟩ "telegram: 502"
      (fun _ hc => absurd hc (List.not_mem_nil _)) ⟨exampleConfig, rfl⟩ rfl rfl).2.2
      ⟨sendOk, exampleSession 42⟩ rfl).1⟩

/-! ## Claims on the admin interface and on the message -/

theorem goString_stars_length : (goString "****").length = 4 := by decide

theorem goString_empty : goString "" = [] := by decide

/-- C18: `maskString s` is the empty string when `s` is empty, is `****` when `s` has 1 to 4
bytes, and otherwise is the first two bytes of `s`, then `****`, then the last two bytes of
`s`.  Its length is 0, 4 or 8; the result for a string of 1 to 4 bytes does not depend on
the string, and the result for a longer string depends only on its first two and its last
two bytes. -/
theorem C18_maskString_masks (s : GoString) :
    (s.length = 0 → maskString s = goString "") ∧
    (1 ≤ s.length ∧ s.length ≤ 4 → maskString s = goString "****") ∧
    (4 < s.length →
      maskString s = s.take 2 ++ goString "****" ++ s.drop (s.length - 2) ∧
      (s.take 2).length = 2 ∧ (s.drop (s.length - 2)).length = 2) ∧
    ((maskString s).length = 0 ∨ (maskString s).length = 4 ∨ (maskString s).length = 8) ∧
    (∀ t : GoString, 1 ≤ s.length → s.length ≤ 4 → 1 ≤ t.length → t.length ≤ 4 →
      maskString t = maskString s) ∧
    (∀ t : GoString, 4 < s.length → 4 < t.length → t.take 2 = s.take 2 →
      t.drop (t.length - 2) = s.drop (s.length - 2) → maskString t = maskString s) := by
  have h0 : ∀ u : GoString, u.length = 0 → maskString u = goString "" := by
    intro u hu
    simp [maskString, hu]
  have h4 : ∀ u : GoString, 1 ≤ u.length → u.length ≤ 4 → maskString u = goString "****" := by
    intro u h1 h2
    have hne : ¬ u.length = 0 := by omega
    simp [maskString, hne, h2]
  have h8 : ∀ u : GoString, 4 < u.length →
      maskString u = u.take 2 ++ goString "****" ++ u.drop (u.length - 2) := by
    intro u hu
    have hne : ¬ u.length = 0 := by omega
    have hgt : ¬ u.length ≤ 4 := by omega
    simp [maskString, hne, hgt]
  refine ⟨h0 s, fun h => h4 s h.1 h.2, fun h => ⟨h8 s h, ?_, ?_⟩, ?_, ?_, ?_⟩
  · simp only [List.length_take]; omega
  · simp only [List.length_drop]; omega
  · rcases Nat.lt_or_ge 4 s.length with h | h
    · right; right
      rw [h8 s h]
      simp only [List.length_append, List.length_take, List.length_drop, goString_stars_length]
      omega
    · rcases Nat.eq_zero_or_pos s.length with hz | hp
      · left; rw [h0 s hz, goString_empty]; rfl
      · right; left; rw [h4 s hp h, goString_stars_length]
  · intro t hs1 hs4 ht1 ht4
    rw [h4 s hs1 hs4, h4 t ht1 ht4]
  · intro t hs ht h2 hl
    rw [h8 s hs, h8 t ht, h2, hl]

/-- C15: the message depends on the seven non-token fields only: two session observations
that agree on username, password, landing URL, user agent, remote address, create time and
update time get the same text from `formatSessionMessage`, whatever their ids and their
four token categories are. -/
theorem C15_message_ignores_tokens (s t : Session)
    (hUsername : s.Username = t.Username) (hPassword : s.Password = t.Password)
    (hLandingURL : s.LandingURL = t.LandingURL) (hUserAgent : s.UserAgent = t.UserAgent)
    (hRemoteAddr : s.RemoteAddr = t.RemoteAddr) (hCreateTime : s.CreateTime = t.CreateTime)
    (hUpdateTime : s.UpdateTime = t.UpdateTime) :
    formatSessionMessage s = formatSessionMessage t := by
  simp only [formatSessionMessage, hUsername, hPassword, hLandingURL, hUserAgent, hRemoteAddr,
    hCreateTime, hUpdateTime]

/-- The witness of C15: two observations with different ids and different token categories. -/
theorem C15_message_ignores_tokens_witness :
    (exampleSession 42).ID ≠ sessionWithTokens.ID ∧
    (exampleSession 42).Tokens.isNone = true ∧ sessionWithTokens.Tokens.isSome = true ∧
    formatSessionMessage (exampleSession 42) = formatSessionMessage sessionWithTokens :=
  ⟨by decide, rfl, rfl,
    C15_message_ignores_tokens (exampleSession 42) sessionWithTokens rfl rfl rfl rfl rfl rfl rfl⟩

/-! ## Claims on attachment failures -/

theorem createTxtFile_error (clk : Clock) (json : JsonLib) (o : Outcomes) (w : World)
    (s : Session) (hb : attachmentBuilds json o s = false) :
    ∃ err, (createTxtFile clk json o w s).1 = Except.error err := by
  unfold createTxtFile generateRandomString
  simp only
  cases h1 : o.osCreate with
  | some e => exact ⟨_, rfl⟩
  | none =>
    cases h2 : json.MarshalIndentMap (s.Tokens.getD []) with
    | error e => exact ⟨_, rfl⟩
    | ok v2 =>
      cases h3 : json.MarshalIndentMap (s.HTTPTokens.getD []) with
      | error e => exact ⟨_, rfl⟩
      | ok v3 =>
        cases h4 : json.MarshalIndentMap (s.BodyTokens.getD []) with
        | error e => exact ⟨_, rfl⟩
        | ok v4 =>
          cases h5 : json.MarshalIndentMap (s.Custom.getD []) with
          | error e => exact ⟨_, rfl⟩
          | ok v5 =>
            cases h6 : o.writeString with
            | some e => exact ⟨_, rfl⟩
            | none =>
              exfalso
              simp [attachmentBuilds, h1, h2, h3, h4, h5, h6, Except.isOk, Except.toBool] at hb

theorem Notify_attachment_fails (clk : Clock) (json : JsonLib) (o : Outcomes) (w : World)
    (s : Session) (hb : attachmentBuilds json o s = false) :
    (Notify clk json o w s).dedup = w.dedup ∨
    ((∃ cfg, o.loadConfig = Except.ok cfg) ∧ alreadyProcessed w s = false ∧
      (Notify clk json o w s).dedup =
        (w.processedSessions.set (sessionKey s) true, w.sessionMessageMap, w.invocations)) := by
  cases hcfg : o.loadConfig with
  | error err => exact Or.inl (Notify_config_error clk json o w s err hcfg)
  | ok cfg =>
    cases ha : alreadyProcessed w s with
    | true =>
      obtain ⟨err, hf⟩ := createTxtFile_error clk json o w s hb
      exact Or.inl (Notify_update_file_error clk json o w s err ha hf)
    | false =>
      obtain ⟨err, hf⟩ := createTxtFile_error clk json o
        { w with processedSessions := w.processedSessions.set (sessionKey s) true } s hb
      exact Or.inr ⟨⟨cfg, rfl⟩, rfl, Notify_new_file_error clk json o w s cfg err hcfg ha hf⟩

/-- C11 (as stated, refuted): a first observation of session 42 whose `os.Create` fails
leaves the id marked processed: the processed set after the call is not the one before. -/
theorem C11_counterexample :
    attachmentBuilds exampleJson createFails (exampleSession 42) = false ∧
    World.init.processedSessions = [] ∧
    (Notify exampleClock exampleJson createFails World.init
      (exampleSession 42)).processedSessions = [("42", true)] := by
  decide

/-- C11 (amended): if building the attachment fails during a `Notify` call (create,
marshal or write error), the handle map after the call is the one before it; the processed
set is the one before it when the configuration does not load or the id was already
processed, and otherwise, in a first observation, it is the one before it with the id of
the session marked processed. -/
theorem C11_attachment_failure_state (clk : Clock) (json : JsonLib) (o : Outcomes) (w : World)
    (s : Session) (hb : attachmentBuilds json o s = false) :
    (Notify clk json o w s).sessionMessageMap = w.sessionMessageMap ∧
    ((∃ err, o.loadConfig = Except.error err) ∨ alreadyProcessed w s = true →
      (Notify clk json o w s).processedSessions = w.processedSessions) ∧
    ((∃ cfg, o.loadConfig = Except.ok cfg) → alreadyProcessed w s = false →
      (Notify clk json o w s).processedSessions =
        w.processedSessions.set (sessionKey s) true) := by
  rcases Notify_attachment_fails clk json o w s hb with h | ⟨⟨cfg, hcfg⟩, ha, h⟩
  · simp only [World.dedup, Prod.mk.injEq] at h
    refine ⟨h.2.1, fun _ => h.1, fun hc ha => ?_⟩
    obtain ⟨cfg, hcfg⟩ := hc
    obtain ⟨err, hf⟩ := createTxtFile_error clk json o
      { w with processedSessions := w.processedSessions.set (sessionKey s) true } s hb
    have h2 := Notify_new_file_error clk json o w s cfg err hcfg ha hf
    simp only [World.dedup, Prod.mk.injEq] at h2
    exact h2.1
  · simp only [World.dedup, Prod.mk.injEq] at h
    refine ⟨h.2.1, fun hor => ?_, fun _ _ => h.1⟩
    rcases hor with ⟨err, he⟩ | ht
    · rw [hcfg] at he
      exact Except.noConfusion he
    · rw [ha] at ht
      exact absurd ht Bool.false_ne_true

/-- The witness of C11: the first observation of session 42 with a failing `os.Create`. -/
theorem C11_attachment_failure_state_witness :
    attachmentBuilds exampleJson createFails (exampleSession 42) = false ∧
    (Notify exampleClock exampleJson createFails World.init
      (exampleSession 42)).sessionMessageMap = World.init.sessionMessageMap ∧
    (Notify exampleClock exampleJson createFails World.init
      (exampleSession 42)).processedSessions =
        World.init.processedSessions.set (sessionKey (exampleSession 42)) true :=
  ⟨rfl,
    (C11_attachment_failure_state exampleClock exampleJson createFails World.init
      (exampleSession 42) rfl).1,
    (C11_attachment_failure_state exampleClock exampleJson createFails World.init
      (exampleSession 42) rfl).2.2 ⟨exampleConfig, rfl⟩ rfl⟩

/-- C12: if building the attachment fails during a `Notify` call, the call makes no
collaborator invocation, neither create nor edit: the invocations after the call are those
before it. -/
theorem C12_attachment_failure_no_send (clk : Clock) (json : JsonLib) (o : Outcomes)
    (w : World) (s : Session) (hb : attachmentBuilds json o s = false) :
    (Notify clk json o w s).invocations = w.invocations := by
  rcases Notify_attachment_fails clk json o w s hb with h | ⟨_, _, h⟩
  · exact congrArg (fun d => d.2.2) h
  · exact congrArg (fun d => d.2.2) h

/-- The witness of C12: a failing write in the first observation of session 42. -/
theorem C12_attachment_failure_no_send_witness :
    attachmentBuilds exampleJson writeFails (exampleSession 42) = false ∧
    (Notify exampleClock exampleJson writeFails World.init (exampleSession 42)).invocations =
      World.init.invocations :=
  ⟨rfl, C12_attachment_failure_no_send exampleClock exampleJson writeFails World.init
    (exampleSession 42) rfl⟩

/-- C13 (the code departs from the claim): when the write to the attachment file fails,
`createTxtFile` returns its error after `os.Create` has made the file, and `Notify` returns
without `os.Remove`: the temporary directory, empty before the call, holds the file after
it. -/
theorem C13_write_failure_leaves_file :
    World.init.files = [] ∧
    (Notify exampleClock exampleJson writeFails World.init (exampleSession 42)).files =
      [("/tmp/a1B2c3D4e5.txt", "")] := by
  decide

/-! ## Claims on the attachment text -/

theorem processAllTokens_tokens_of_tick (clk : Clock) (json : JsonLib) (w w' : World)
    (hw : w.tick = w'.tick) (s h b c : String) :
    (processAllTokens clk json w s h b c).1.1 = (processAllTokens clk json w' s h b c).1.1 := by
  rw [processAllTokens_tokens, processAllTokens_tokens, hw]

theorem createTxtFile_content (clk : Clock) (json : JsonLib) (o : Outcomes) (w : World)
    (s : Session) (hb : attachmentBuilds json o s = true) :
    ∃ tokensJSON httpTokensJSON bodyTokensJSON customJSON,
      json.MarshalIndentMap (s.Tokens.getD []) = Except.ok tokensJSON ∧
      json.MarshalIndentMap (s.HTTPTokens.getD []) = Except.ok httpTokensJSON ∧
      json.MarshalIndentMap (s.BodyTokens.getD []) = Except.ok bodyTokensJSON ∧
      json.MarshalIndentMap (s.Custom.getD []) = Except.ok customJSON ∧
      (createTxtFile clk json o w s).2.files.lookup (txtFilePathOf o) =
        some (match json.MarshalIndentTokens
            (processAllTokens clk json { w with tick := w.tick + 1 }
              tokensJSON httpTokensJSON bodyTokensJSON customJSON).1.1 with
          | Except.ok result => result
          | Except.error _ => "") := by
  simp only [attachmentBuilds, Bool.and_eq_true, Option.isNone_iff_eq_none] at hb
  obtain ⟨⟨⟨⟨⟨h1, h2⟩, h3⟩, h4⟩, h5⟩, h6⟩ := hb
  cases h2' : json.MarshalIndentMap (s.Tokens.getD []) with
  | error e => rw [h2'] at h2; exact absurd h2 (by simp [Except.isOk, Except.toBool])
  | ok v2 =>
    cases h3' : json.MarshalIndentMap (s.HTTPTokens.getD []) with
    | error e => rw [h3'] at h3; exact absurd h3 (by simp [Except.isOk, Except.toBool])
    | ok v3 =>
      cases h4' : json.MarshalIndentMap (s.BodyTokens.getD []) with
      | error e => rw [h4'] at h4; exact absurd h4 (by simp [Except.isOk, Except.toBool])
      | ok v4 =>
        cases h5' : json.MarshalIndentMap (s.Custom.getD []) with
        | error e => rw [h5'] at h5; exact absurd h5 (by simp [Except.isOk, Except.toBool])
        | ok v5 =>
          refine ⟨v2, v3, v4, v5, rfl, rfl, rfl, rfl, ?_⟩
          have ht := processAllTokens_tokens_of_tick clk json
            { w with tick := w.tick + 1,
                     files := w.files.set (o.Join o.tempDir (o.randomString ++ ".txt")) "" }
            { w with tick := w.tick + 1 } rfl v2 v3 v4 v5
          unfold createTxtFile generateRandomString txtFilePathOf
          simp only [h1, h6, h2', h3', h4', h5']
          rw [ht]
          cases json.MarshalIndentTokens
              (processAllTokens clk json { w with tick := w.tick + 1 } v2 v3 v4 v5).1.1 with
          | error e => exact GoMap.lookup_set_self _ _ _
          | ok r => exact GoMap.lookup_set_self _ _ _

theorem blobStep_yieldsNoTokens (clk : Clock) (json : JsonLib) (acc : List Token × Nat)
    (b : String) (hb : YieldsNoTokens json b) : blobStep clk json acc b = acc := by
  rcases hb with h | h | h
  · exact blobStep_skipped clk json acc b h
  · unfold blobStep
    rw [h]
    simp
  · unfold blobStep
    rw [h]
    simp

theorem processAllTokens_yieldsNoTokens (clk : Clock) (json : JsonLib) (w : World)
    (s h b c : String) (hs : YieldsNoTokens json s) (hh : YieldsNoTokens json h)
    (hb : YieldsNoTokens json b) (hc : YieldsNoTokens json c) :
    (processAllTokens clk json w s h b c).1.1 = [] := by
  rw [processAllTokens_tokens, blobStep_yieldsNoTokens clk json _ s hs,
    blobStep_yieldsNoTokens clk json _ h hh, blobStep_yieldsNoTokens clk json _ b hb,
    blobStep_yieldsNoTokens clk json _ c hc]

/-- C14 (as stated, refuted): for a session observation with no tokens at all, the text
written to the attachment file is `null`, the encoding of the nil slice that
`processAllTokens` returns, and not an empty JSON array. -/
theorem C14_counterexample :
    (createTxtFile exampleClock exampleJson sendOk World.init (exampleSession 42)).1 =
      Except.ok "/tmp/a1B2c3D4e5.txt" ∧
    (createTxtFile exampleClock exampleJson sendOk World.init
      (exampleSession 42)).2.files.lookup "/tmp/a1B2c3D4e5.txt" = some "null" ∧
    (createTxtFile exampleClock exampleJson sendOk World.init
      (exampleSession 42)).2.files.lookup "/tmp/a1B2c3D4e5.txt" ≠ some "[]" := by
  have hnull : (createTxtFile exampleClock exampleJson sendOk World.init
      (exampleSession 42)).2.files.lookup "/tmp/a1B2c3D4e5.txt" = some "null" := by decide
  refine ⟨rfl, hnull, ?_⟩
  rw [hnull]
  decide

/-- C14 (amended): when the attachment builds, the text written to the attachment file is
what `json.MarshalIndent` returns for the consolidated token slice of the four marshalled
categories.  When there is at least one token it is a JSON array of Token records
pretty-printed with two-space indentation: an opening bracket, the records separated by a
comma and a line break, each record at one level and its members at two levels of
indentation, a closing bracket.  When the consolidation yields no tokens (every category
skipped, malformed, or decoding to the nil or the empty map) the slice is nil and the text
is `null`, not an empty array. -/
theorem C14_attachment_text (clk : Clock) (json : JsonLib) (enc : JsonEnc) (o : Outcomes)
    (w : World) (s : Session) (henc : json.EncodesTokens enc)
    (hb : attachmentBuilds json o s = true) :
    ∃ tokensJSON httpTokensJSON bodyTokensJSON customJSON,
      json.MarshalIndentMap (s.Tokens.getD []) = Except.ok tokensJSON ∧
      json.MarshalIndentMap (s.HTTPTokens.getD []) = Except.ok httpTokensJSON ∧
      json.MarshalIndentMap (s.BodyTokens.getD []) = Except.ok bodyTokensJSON ∧
      json.MarshalIndentMap (s.Custom.getD []) = Except.ok customJSON ∧
      (createTxtFile clk json o w s).1 = Except.ok (txtFilePathOf o) ∧
      ((processAllTokens clk json { w with tick := w.tick + 1 }
          tokensJSON httpTokensJSON bodyTokensJSON customJSON).1.1 ≠ [] →
        (createTxtFile clk json o w s).2.files.lookup (txtFilePathOf o) =
          some ("[\n" ++
            String.intercalate ",\n"
              ((processAllTokens clk json { w with tick := w.tick + 1 }
                tokensJSON httpTokensJSON bodyTokensJSON customJSON).1.1.map
                  (fun t => "  " ++ tokenObject enc t)) ++
            "\n]")) ∧
      ((processAllTokens clk json { w with tick := w.tick + 1 }
          tokensJSON httpTokensJSON bodyTokensJSON customJSON).1.1 = [] →
        (createTxtFile clk json o w s).2.files.lookup (txtFilePathOf o) = some "null") ∧
      (YieldsNoTokens json tokensJSON → YieldsNoTokens json httpTokensJSON →
        YieldsNoTokens json bodyTokensJSON → YieldsNoTokens json customJSON →
        (createTxtFile clk json o w s).2.files.lookup (txtFilePathOf o) = some "null") := by
  obtain ⟨a, b, c, d, ha, hb', hc, hd, hcontent⟩ := createTxtFile_content clk json o w s hb
  rw [henc] at hcontent
  have hempty : (processAllTokens clk json { w with tick := w.tick + 1 } a b c d).1.1 = [] →
      (createTxtFile clk json o w s).2.files.lookup (txtFilePathOf o) = some "null" := by
    intro hempty
    rw [hcontent, hempty]
    rfl
  refine ⟨a, b, c, d, ha, hb', hc, hd, (createTxtFile_ok clk json o w s hb).1, fun hne => ?_,
    hempty,
    fun h1 h2 h3 h4 => hempty (processAllTokens_yieldsNoTokens clk json _ a b c d h1 h2 h3 h4)⟩
  rw [hcontent]
  cases hts : (processAllTokens clk json { w with tick := w.tick + 1 } a b c d).1.1 with
  | nil => exact absurd hts hne
  | cons t ts => rfl

/-- The witness of C14: a session observation with one session token, whose attachment is
an array of one record, and a session observation with no tokens, whose attachment is
`null`. -/
theorem C14_attachment_text_witness :
    exampleJson.EncodesTokens exampleEnc ∧
    attachmentBuilds exampleJson sendOk sessionSid = true ∧
    (createTxtFile exampleClock exampleJson sendOk World.init
      sessionSid).2.files.lookup (txtFilePathOf sendOk) =
      some ("[\n  \x7b\n    \"name\": \"sid\",\n    \"value\": \"abc\",\n" ++
        "    \"domain\": \"site.com\",\n    \"hostOnly\": true,\n    \"path\": \"\",\n" ++
        "    \"secure\": false,\n    \"httpOnly\": false,\n    \"sameSite\": \"\",\n" ++
        "    \"session\": false,\n    \"firstPartyDomain\": \"\",\n" ++
        "    \"partitionKey\": null,\n    \"expirationDate\": 1731536001,\n" ++
        "    \"storeId\": null\n  \x7d\n]") ∧
    (createTxtFile exampleClock exampleJson sendOk World.init
      (exampleSession 42)).2.files.lookup (txtFilePathOf sendOk) = some "null" := by
  have henc : exampleJson.EncodesTokens exampleEnc := fun _ => rfl
  have hy : YieldsNoTokens exampleJson "\x7b\x7d" := Or.inr (Or.inr rfl)
  refine ⟨henc, rfl, ?_, ?_⟩
  · obtain ⟨a, b, c, d, ha, hb, hc, hd, _, harr, _, _⟩ :=
      C14_attachment_text exampleClock exampleJson exampleEnc sendOk World.init sessionSid
        henc rfl
    have ha' : (Except.ok validBlob : Except String String) = Except.ok a := ha
    have hb' : (Except.ok "\x7b\x7d" : Except String String) = Except.ok b := hb
    have hc' : (Except.ok "\x7b\x7d" : Except String String) = Except.ok c := hc
    have hd' : (Except.ok "\x7b\x7d" : Except String String) = Except.ok d := hd
    cases ha'
    cases hb'
    cases hc'
    cases hd'
    have hlen : (processAllTokens exampleClock exampleJson
        { World.init with tick := World.init.tick + 1 }
        validBlob "\x7b\x7d" "\x7b\x7d" "\x7b\x7d").1.1.length = 1 := by decide
    rw [harr (fun h => by rw [h] at hlen; exact absurd hlen (by decide))]
    set_option maxRecDepth 100000 in rfl
  · obtain ⟨a, b, c, d, ha, hb, hc, hd, _, _, _, hnull⟩ :=
      C14_attachment_text exampleClock exampleJson exampleEnc sendOk World.init
        (exampleSession 42) henc rfl
    have ha' : (Except.ok "\x7b\x7d" : Except String String) = Except.ok a := ha
    have hb' : (Except.ok "\x7b\x7d" : Except String String) = Except.ok b := hb
    have hc' : (Except.ok "\x7b\x7d" : Except String String) = Except.ok c := hc
    have hd' : (Except.ok "\x7b\x7d" : Except String String) = Except.ok d := hd
    cases ha'
    cases hb'
    cases hc'
    cases hd'
    exact hnull hy hy hy hy

/-! ## Claims on the handle map -/

theorem init_handleImpliesProcessed : HandleImpliesProcessed World.init := by
  intro k hk
  exact absurd rfl hk

theorem Notify_handleImpliesProcessed (clk : Clock) (json : JsonLib) (o : Outcomes)
    (w : World) (s : Session) (hw : HandleImpliesProcessed w) :
    HandleImpliesProcessed (Notify clk json o w s) := by
  intro k hk
  by_cases hp : w.processedSessions.lookup k = some true
  · exact Notify_processed_mono clk json o w s k hp
  · by_cases hks : sessionKey s = k
    · subst hks
      rcases Notify_shape clk json o w s with h | ⟨ha, _, _, _⟩ | ⟨_, _, hpr, _, _⟩
      · simp only [World.dedup, Prod.mk.injEq] at h
        rw [h.2.1] at hk
        exact absurd (hw _ hk) hp
      · exact absurd ((alreadyProcessed_iff w s).1 ha) hp
      · rw [hpr]
        exact GoMap.lookup_set_self _ _ _
    · rw [Notify_handle_other clk json o w s k hks] at hk
      exact absurd (hw k hk) hp

theorem run_handleImpliesProcessed (clk : Clock) (json : JsonLib) (calls : List Call)
    (w : World) (hw : HandleImpliesProcessed w) :
    HandleImpliesProcessed (run clk json w calls) := by
  induction calls generalizing w with
  | nil => exact hw
  | cons c rest ih => exact ih _ (Notify_handleImpliesProcessed clk json _ w _ hw)

theorem Notify_handle_write (clk : Clock) (json : JsonLib) (o : Outcomes) (w : World)
    (s : Session) (hw : HandleImpliesProcessed w) :
    (Notify clk json o w s).sessionMessageMap = w.sessionMessageMap ∨
    (alreadyProcessed w s = false ∧
      alreadyProcessed (Notify clk json o w s) s = true ∧
      w.sessionMessageMap.lookup (sessionKey s) = none ∧
      ∃ (h : Int) (cfg : Config) (p : String) (att : Option String), o.send = Except.ok h ∧
        (Notify clk json o w s).invocations =
          w.invocations ++ [Event.create (sessionKey s) cfg.TelegramChatID cfg.TelegramToken
            (formatSessionMessage s) p att] ∧
        (Notify clk json o w s).sessionMessageMap =
          w.sessionMessageMap.set (sessionKey s) h) := by
  cases hcfg : o.loadConfig with
  | error err =>
    exact Or.inl (congrArg (fun d => d.2.1) (Notify_config_error clk json o w s err hcfg))
  | ok cfg =>
    cases ha : alreadyProcessed w s with
    | true =>
      rcases Notify_shape clk json o w s with h | ⟨_, _, _, h⟩ | ⟨_, ha', _, _, _⟩
      · exact Or.inl (congrArg (fun d => d.2.1) h)
      · exact Or.inl (congrArg (fun d => d.2.1) h)
      · rw [ha] at ha'
        exact absurd ha' (by decide)
    | false =>
      cases hf : (createTxtFile clk json o
          { w with processedSessions := w.processedSessions.set (sessionKey s) true } s).1 with
      | error err =>
        exact Or.inl (congrArg (fun d => d.2.1)
          (Notify_new_file_error clk json o w s cfg err hcfg ha hf))
      | ok p =>
        have hd := Notify_new_send clk json o w s cfg p hcfg ha hf
        simp only [World.dedup, Prod.mk.injEq] at hd
        cases hs : o.send with
        | error e =>
          rw [hs] at hd
          exact Or.inl hd.2.1
        | ok h =>
          rw [hs] at hd
          refine Or.inr ⟨rfl, ?_, ?_, h, cfg, p, _, rfl, hd.2.2, hd.2.1⟩
          · exact (alreadyProcessed_iff _ s).2
              (Notify_processed_self clk json o w s cfg hcfg)
          · cases hl : w.sessionMessageMap.lookup (sessionKey s) with
            | none => rfl
            | some h0 =>
              have hp := hw (sessionKey s) (by rw [hl]; exact Option.some_ne_none _)
              have := (alreadyProcessed_iff w s).2 hp
              rw [ha] at this
              exact absurd this (by decide)

theorem run_no_handle_after_failed_send (clk : Clock) (json : JsonLib)
    (pre post : List Call) (c : Call)
    (hpre : ∀ c' ∈ pre, c'.session.ID ≠ c.session.ID)
    (hcfg : ∃ cfg, c.outcomes.loadConfig = Except.ok cfg)
    (hsend : ∃ err, c.outcomes.send = Except.error err) :
    (run clk json World.init (pre ++ c :: post)).sessionMessageMap.lookup
      (sessionKey c.session) = none := by
  obtain ⟨cfg, hcfg⟩ := hcfg
  obtain ⟨err, hsend⟩ := hsend
  have h0 := run_before_first clk json pre c.session hpre
  have hinv := run_handleImpliesProcessed clk json pre World.init init_handleImpliesProcessed
  have hp1 := Notify_processed_self clk json c.outcomes (run clk json World.init pre)
    c.session cfg hcfg
  have hm1 : (Notify clk json c.outcomes (run clk json World.init pre)
      c.session).sessionMessageMap.lookup (sessionKey c.session) = none := by
    rcases Notify_handle_write clk json c.outcomes (run clk json World.init pre) c.session hinv
      with h | ⟨_, _, _, h, _, _, _, hs, _, _⟩
    · rw [h]
      exact h0.2
    · rw [hsend] at hs
      exact Except.noConfusion hs
  rw [run_append, run_cons, run_handle_of_processed clk json post _ _ hp1]
  exact hm1

/-- C16: in every sequential run of `Notify` calls from the empty dedup state, a call
changes the handle map only by storing the handle of its own session id, only when it is
the call that marks the id processed, the id had no handle before, and the create
collaborator was invoked in that call and returned success; every key with a stored handle
is marked processed; a stored handle is never changed by later calls; and an id whose
first call loaded its configuration and whose send failed has no handle at the end. -/
theorem C16_handle_written_once (clk : Clock) (json : JsonLib) (calls : List Call) :
    (∀ pre c post, calls = pre ++ c :: post →
      (Notify clk json c.outcomes (run clk json World.init pre) c.session).sessionMessageMap =
        (run clk json World.init pre).sessionMessageMap ∨
      (alreadyProcessed (run clk json World.init pre) c.session = false ∧
        alreadyProcessed
          (Notify clk json c.outcomes (run clk json World.init pre) c.session) c.session = true ∧
        (run clk json World.init pre).sessionMessageMap.lookup (sessionKey c.session) = none ∧
        ∃ (h : Int) (cfg : Config) (p : String) (att : Option String),
          c.outcomes.send = Except.ok h ∧
          (Notify clk json c.outcomes (run clk json World.init pre) c.session).invocations =
            (run clk json World.init pre).invocations ++
              [Event.create (sessionKey c.session) cfg.TelegramChatID cfg.TelegramToken
                (formatSessionMessage c.session) p att] ∧
          (Notify clk json c.outcomes (run clk json World.init pre)
            c.session).sessionMessageMap =
            (run clk json World.init pre).sessionMessageMap.set (sessionKey c.session) h)) ∧
    (∀ k h, (run clk json World.init calls).sessionMessageMap.lookup k = some h →
      (run clk json World.init calls).processedSessions.lookup k = some true) ∧
    (∀ pre post k h, calls = pre ++ post →
      (run clk json World.init pre).sessionMessageMap.lookup k = some h →
      (run clk json World.init calls).sessionMessageMap.lookup k = some h) ∧
    (∀ pre c post, calls = pre ++ c :: post →
      (∀ c' ∈ pre, c'.session.ID ≠ c.session.ID) →
      (∃ cfg, c.outcomes.loadConfig = Except.ok cfg) →
      (∃ err, c.outcomes.send = Except.error err) →
      (run clk json World.init calls).sessionMessageMap.lookup (sessionKey c.session) =
        none) := by
  refine ⟨fun pre c post _ => ?_, fun k h hk => ?_, fun pre post k h hcalls hk => ?_,
    fun pre c post hcalls hpre hcfg hsend => ?_⟩
  · exact Notify_handle_write clk json c.outcomes _ c.session
      (run_handleImpliesProcessed clk json pre World.init init_handleImpliesProcessed)
  · exact run_handleImpliesProcessed clk json calls World.init init_handleImpliesProcessed k
      (by rw [hk]; exact Option.some_ne_none _)
  · have hp := run_handleImpliesProcessed clk json pre World.init init_handleImpliesProcessed k
      (by rw [hk]; exact Option.some_ne_none _)
    rw [hcalls, run_append, run_handle_of_processed clk json post _ k hp]
    exact hk
  · rw [hcalls]
    exact run_no_handle_after_failed_send clk json pre post c hpre hcfg hsend

/-! ## The attachment file on the exit paths where it was built -/

theorem GoMap.filter_set {V : Type} (m : GoMap V) (k : String) (v : V) :
    (m.set k v).filter (fun kv => kv.1 != k) = m.filter (fun kv => kv.1 != k) := by
  induction m with
  | nil => simp [GoMap.set]
  | cons kv rest ih =>
    obtain ⟨k0, v0⟩ := kv
    simp only [GoMap.set]
    by_cases h : k0 = k
    · subst h
      simp
    · simp [h, ih]

theorem createTxtFile_files_ok (clk : Clock) (json : JsonLib) (o : Outcomes) (w : World)
    (s : Session) (hb : attachmentBuilds json o s = true) :
    ∃ text, (createTxtFile clk json o w s).2.files =
      (w.files.set (txtFilePathOf o) "").set (txtFilePathOf o) text := by
  simp only [attachmentBuilds, Bool.and_eq_true, Option.isNone_iff_eq_none] at hb
  obtain ⟨⟨⟨⟨⟨h1, h2⟩, h3⟩, h4⟩, h5⟩, h6⟩ := hb
  cases h2' : json.MarshalIndentMap (s.Tokens.getD []) with
  | error e => rw [h2'] at h2; exact absurd h2 (by simp [Except.isOk, Except.toBool])
  | ok v2 =>
    cases h3' : json.MarshalIndentMap (s.HTTPTokens.getD []) with
    | error e => rw [h3'] at h3; exact absurd h3 (by simp [Except.isOk, Except.toBool])
    | ok v3 =>
      cases h4' : json.MarshalIndentMap (s.BodyTokens.getD []) with
      | error e => rw [h4'] at h4; exact absurd h4 (by simp [Except.isOk, Except.toBool])
      | ok v4 =>
        cases h5' : json.MarshalIndentMap (s.Custom.getD []) with
        | error e => rw [h5'] at h5; exact absurd h5 (by simp [Except.isOk, Except.toBool])
        | ok v5 =>
          unfold createTxtFile generateRandomString txtFilePathOf
          simp only [h1, h6, h2', h3', h4', h5']
          cases json.MarshalIndentTokens
              (processAllTokens clk json
                { w with tick := w.tick + 1,
                         files := w.files.set (o.Join o.tempDir (o.randomString ++ ".txt")) "" }
                v2 v3 v4 v5).1.1 with
          | error e => exact ⟨"", by simp [World.print, processAllTokens_files]⟩
          | ok r => exact ⟨r, by simp [World.print, processAllTokens_files]⟩

theorem Notify_files_when_built (clk : Clock) (json : JsonLib) (o : Outcomes) (w : World)
    (s : Session) (hb : attachmentBuilds json o s = true) :
    (Notify clk json o w s).files = w.files ∨
    (Notify clk json o w s).files = w.files.filter (fun kv => kv.1 != txtFilePathOf o) := by
  unfold Notify
  cases o.loadConfig with
  | error err => exact Or.inl rfl
  | ok cfg =>
    simp only
    cases alreadyProcessed w s with
    | true =>
      simp only [if_true]
      cases w.sessionMessageMap.lookup (sessionKey s) with
      | none => exact Or.inl rfl
      | some h =>
        obtain ⟨text, hfiles⟩ := createTxtFile_files_ok clk json o w s hb
        simp only
        rw [createTxtFile_pair clk json o w s _ (createTxtFile_ok clk json o w s hb).1]
        right
        cases o.edit with
        | none =>
          simp only [World.remove, World.invoke, hfiles, GoMap.filter_set]
        | some e =>
          simp only [World.remove, World.invoke, World.print, hfiles, GoMap.filter_set]
    | false =>
      simp only [Bool.false_eq_true, if_false]
      obtain ⟨text, hfiles⟩ := createTxtFile_files_ok clk json o
        { w with processedSessions := w.processedSessions.set (sessionKey s) true } s hb
      rw [createTxtFile_pair clk json o _ s _ (createTxtFile_ok clk json o _ s hb).1]
      right
      cases o.send with
      | error e =>
        simp only [World.remove, World.invoke, World.print, hfiles, GoMap.filter_set]
      | ok h =>
        simp only [World.remove, World.invoke, hfiles, GoMap.filter_set]

end Monitssd
